import Mathlib

/-!
Verification development for the XactimateAI scope-generation pipeline.

Shallow embedding of the post-processing core:
 * item sanitizer and gap auditor (`src/unnamed/part_001`, the
   `xactimateRules` module: `enforceBusinessLogic`, `sanitizeLineItem`,
   `validateScopeGaps`),
 * room deduplicator (`src/utils/roomSanitizer.ts`),
 * logistics engine (`src/utils/logisticsEngine.ts`).

Modelling conventions:
 * JS strings are Lean `String`s restricted to the ASCII range used by the
   code (case mapping uses `Char.toUpper`/`Char.toLower`, which agree with
   JS `toUpperCase`/`toLowerCase` on ASCII).
 * JS `number` is modelled as `ℚ`; the thresholds and ceilings in the code
   are exact at the magnitudes involved, so rational arithmetic agrees with
   IEEE doubles on every comparison the code performs.
 * `crypto.randomUUID()` is modelled as a fixed placeholder string; no
   verified claim depends on the freshness of generated ids.
 * Optional string fields (`reasoning`, `confidence`, timestamps) are
   modelled as `String`, with `""` standing for `undefined`: every use in
   the embedded code is either `x || ''`, `x?.includes(...)` or a
   truthiness test, on which `undefined` and `""` behave identically.
-/

/-- ASCII uppercase mapping on one character: the behaviour of JS
`toUpperCase` on the ASCII strings this code base manipulates. -/
def jsUpperChar (c : Char) : Char :=
  if 97 ≤ c.toNat && c.toNat ≤ 122 then Char.ofNat (c.toNat - 32) else c

/-- ASCII lowercase mapping on one character (JS `toLowerCase` on ASCII). -/
def jsLowerChar (c : Char) : Char :=
  if 65 ≤ c.toNat && c.toNat ≤ 90 then Char.ofNat (c.toNat + 32) else c

/-- JS `toUpperCase` (ASCII). -/
def jsToUpper (s : String) : String :=
  String.mk (s.toList.map jsUpperChar)

/-- JS `toLowerCase` (ASCII). -/
def jsToLower (s : String) : String :=
  String.mk (s.toList.map jsLowerChar)

/-- Whitespace class of JS regexps and `trim` (ASCII part). -/
def jsWhitespace (c : Char) : Bool :=
  c = ' ' || c = '\t' || c = '\n' || c = '\r' || c = '\x0b' || c = '\x0c'

/-- JS `String.prototype.trim`: strip leading and trailing whitespace. -/
def jsTrim (s : String) : String :=
  String.mk (((s.toList.dropWhile jsWhitespace).reverse.dropWhile jsWhitespace).reverse)

/-- Does `needle` start `hay`?  (Char-list prefix test.) -/
def startsList (needle hay : List Char) : Bool :=
  needle.isPrefixOf hay

/-- JS `String.prototype.includes`: substring containment. -/
def containsSub (needle hay : List Char) : Bool :=
  hay.tails.any (startsList needle)

/-- String-level wrapper for `containsSub`. -/
def strIncludes (hay needle : String) : Bool :=
  containsSub needle.toList hay.toList

/-- JS `str.endsWith('-')`: the final character is a dash. -/
def endsWithDash (s : String) : Bool :=
  s.toList.getLast? = some '-'

/-- Drop the final character (JS `slice(0, -1)`). -/
def dropLastChar (s : String) : String :=
  String.mk s.toList.dropLast

/-- Keep only `[A-Z0-9]` characters (the class kept by
`replace(/[^A-Z0-9]/g, '')` after uppercasing). -/
def isUpperAlnum (c : Char) : Bool :=
  (65 ≤ c.toNat && c.toNat ≤ 90) || (48 ≤ c.toNat && c.toNat ≤ 57)

/-- `x.toUpperCase().replace(/[^A-Z0-9]/g, '')` — the aggressive code
cleaning of `enforceBusinessLogic`. -/
def jsClean (s : String) : String :=
  String.mk ((s.toList.map jsUpperChar).filter isUpperAlnum)

/-- First-occurrence deduplication: the contents and iteration order of a JS
`Set` built by successive insertions. -/
def dedupF {α : Type} [DecidableEq α] (l : List α) : List α :=
  l.foldl (fun acc a => if a ∈ acc then acc else acc ++ [a]) []

/-- JS `Math.ceil` on a rational. -/
def jsCeil (q : ℚ) : ℤ :=
  -(Rat.floor (-q))

/-- JS `Math.round` on a rational (round half towards `+∞`). -/
def jsRound (q : ℚ) : ℤ :=
  Rat.floor (q + 1/2)

/-- Fixed placeholder for `crypto.randomUUID()`; id freshness is outside
the verified claims. -/
def randomUUID : String := "00000000-0000-4000-8000-000000000000"

/-- `LineItem` from `types.ts`.  `activity` carries the `ActivityCode`
string value (`"-"`, `"+"`, `"&"`); `reasoning`/`confidence` use `""` for
`undefined` (see module conventions). -/
structure LineItem where
  id : String
  category : String
  selector : String
  code : String
  description : String
  activity : String
  quantity : ℚ
  quantity_inference : String
  unit : String
  reasoning : String
  confidence : String
deriving Repr, DecidableEq

/-- `RoomData` from `types.ts` (the `dimensions_estimated` display field is
not read or written by any embedded function and is elided). -/
structure RoomData where
  id : String
  name : String
  timestamp_in : String
  timestamp_out : String
  narrative_synthesis : String
  flagged_issues : List String
  items : List LineItem
deriving Repr, DecidableEq

/-! ## Item sanitizer (`xactimateRules`, src/unnamed/part_001) -/

/-- Keys of `CAT_CODE_DICTIONARY` (src/utils/catCodeData.ts); the `name` and
`description` values are display-only and never read by the embedded
functions, which test only `hasOwnProperty`. -/
def CAT_CODE_DICTIONARY_KEYS : List String :=
  ["WTR", "DRY", "PNT", "FCC", "FCW", "FCV", "FCT", "FNC", "CAB", "DOR",
   "WDV", "RFG", "SDG", "FRM", "INS", "PLA", "SFG", "ELE", "LIT", "PLM",
   "HVC", "APP", "DMO", "CLN", "TMP", "HMR", "LAB", "SCF", "CON", "FEE"]

/-- `CODE_ALIASES`: strict code mappings (anti-hallucination). -/
def CODE_ALIASES : List (String × (String × String)) :=
  [("PNT WALL", ("PNT", "P2")),
   ("PNT WALL-", ("PNT", "P2")),
   ("PNT CEIL", ("PNT", "CEIL")),
   ("FCC AV-", ("FCC", "AV")),
   ("FCC PAD-", ("FCC", "PAD")),
   ("WTR EXTW", ("WTR", "EXTW")),
   ("WTR GRD", ("WTR", "GRD")),
   ("FLR", ("FCC", "AV"))]

/-- Alias-table lookup on the combined `"CAT SEL"` key. -/
def aliasLookup (key : String) : Option (String × String) :=
  CODE_ALIASES.lookup key

/-- `enforceBusinessLogic`: aggressive code cleaning, dictionary
validation, and the confidence kill switch with the guarded
`(Auto-Downgraded: …)` marker. -/
def enforceBusinessLogic (item : LineItem) : LineItem :=
  let cleanCat := jsClean item.category
  let cleanSel := jsClean item.selector
  let isValidCode := CAT_CODE_DICTIONARY_KEYS.contains cleanCat
  let finalConfidence := if !isValidCode then "Low" else item.confidence
  let finalReasoning :=
    if !isValidCode && !(strIncludes item.reasoning "Auto-Downgraded") then
      jsTrim (item.reasoning ++ " (Auto-Downgraded: Code " ++ cleanCat ++
        " not in standard database)")
    else item.reasoning
  { item with
    category := cleanCat
    selector := cleanSel
    confidence := finalConfidence
    reasoning := finalReasoning }

/-- `sanitizeLineItem`: alias fixing, trailing-dash strip on alias miss, the
paint-wall hard override, then `enforceBusinessLogic`. -/
def sanitizeLineItem (item : LineItem) : LineItem :=
  let combinedKey := jsTrim (jsToUpper (item.category ++ " " ++ item.selector))
  let cs : String × String :=
    match aliasLookup combinedKey with
    | some a => a
    | none =>
      (item.category,
       if endsWithDash item.selector then dropLastChar item.selector
       else item.selector)
  let category := cs.1
  let selector :=
    if category = "PNT" && (cs.2 = "WALL" || cs.2 = "W") then "P2" else cs.2
  enforceBusinessLogic
    { item with category := category, selector := selector }

/-- `validateScopeGaps`: mandatory-inclusion audit over the
`"CAT SEL"` keys present in the item list. -/
def validateScopeGaps (items : List LineItem) : List String :=
  let codes := items.map (fun i => i.category ++ " " ++ i.selector)
  (if codes.contains "WTR EXTW" && !(codes.contains "WTR GRD") then
    ["Audit Flag: Water Extraction present but Germicide (WTR GRD) is missing."]
  else []) ++
  (if codes.contains "FCC AV" && !(codes.contains "FCC PAD") then
    ["Audit Flag: Carpet replaced (FCC AV) but Pad (FCC PAD) is missing."]
  else [])

/-! ## Room deduplicator (src/utils/roomSanitizer.ts) -/

/-- Similarity threshold: 75% item overlap counts as a likely duplicate. -/
def SIMILARITY_THRESHOLD : ℚ := 3/4

/-- Safety limit for the iterative merge loop. -/
def MAX_MERGE_PASSES : Nat := 5

/-- Matches `x\s*y` as a JS regexp alternative: `x`, any run of whitespace,
then `y` (both literals start with non-whitespace characters, so maximal
whitespace munching is equivalent to backtracking). -/
def startsGapped (x y : List Char) (s : List Char) : Bool :=
  x.isPrefixOf s && y.isPrefixOf ((s.drop x.length).dropWhile jsWhitespace)

/-- Containment test for a two-literal `x\s*y` regexp alternative. -/
def containsGapped (x y : List Char) (s : List Char) : Bool :=
  s.tails.any (startsGapped x y)

/-- One alternative of a `ROOM_TYPE_PATTERNS` regexp: a plain literal
(optional groups such as `(room)?` never affect `test` and are folded into
the mandatory stem), or a pair of literals separated by `\s*`. -/
inductive PatAlt where
  | lit : String → PatAlt
  | gap : String → String → PatAlt
deriving Repr

/-- Does one alternative match somewhere in `s` (the `test` semantics)? -/
def PatAlt.matches (s : List Char) : PatAlt → Bool
  | .lit w => containsSub w.toList s
  | .gap x y => containsGapped x.toList y.toList s

/-- `ROOM_TYPE_PATTERNS`, in object-insertion order.  Each regexp is the
disjunction of its alternatives; the `/i` flag is accounted for by testing
against the lower-cased name. -/
def ROOM_TYPE_PATTERNS : List (String × List PatAlt) :=
  [("bathroom", [.lit "bath", .lit "powder", .lit "restroom", .lit "wc",
                 .lit "lavatory", .gap "half" "bath"]),
   ("bedroom", [.lit "bed", .lit "master", .gap "guest" "room", .lit "nursery"]),
   ("kitchen", [.lit "kitchen", .lit "kitchenette"]),
   ("living", [.lit "living", .lit "family", .gap "great" "room", .lit "den",
               .lit "lounge"]),
   ("laundry", [.lit "laundry", .lit "utility", .gap "mud" "room"]),
   ("hallway", [.lit "hall", .lit "corridor", .lit "passage", .lit "foyer",
                .lit "entry"]),
   ("garage", [.lit "garage", .lit "carport"]),
   ("basement", [.lit "basement", .lit "cellar", .gap "lower" "level"]),
   ("office", [.lit "office", .lit "study", .gap "home" "office",
               .lit "workspace"]),
   ("dining", [.lit "dining", .gap "breakfast" "nook"]),
   ("closet", [.lit "closet", .lit "storage", .lit "pantry", .lit "wardrobe"])]

/-- `extractRoomType`: first matching semantic bucket, else the first
whitespace/digit-delimited token of the lower-cased trimmed name, else
`"unknown"`. -/
def extractRoomType (name : String) : String :=
  let normalized := jsTrim (jsToLower name)
  match ROOM_TYPE_PATTERNS.find? (fun p => p.2.any (·.matches normalized.toList)) with
  | some p => p.1
  | none =>
    let firstTok :=
      String.mk (normalized.toList.takeWhile (fun c => !jsWhitespace c && !c.isDigit))
    if firstTok = "" then "unknown" else firstTok

/-- `extractRoomNumber`: the first run of digits in the name as a number,
or 999 when the name has no digit. -/
def extractRoomNumber (name : String) : Nat :=
  let rest := name.toList.dropWhile (fun c => !c.isDigit)
  match rest with
  | [] => 999
  | _ =>
    (rest.takeWhile Char.isDigit).foldl (fun n c => n * 10 + (c.toNat - 48)) 0

/-- Quantity bucket of `generateItemSignature`:
S: 0-10, M: 11-50, L: 51-100, XL: 101-500, XXL: 500+. -/
def qtyBucket (q : ℚ) : String :=
  if q ≤ 10 then "S" else if q ≤ 50 then "M" else if q ≤ 100 then "L"
  else if q ≤ 500 then "XL" else "XXL"

/-- Selector normalization inside `generateItemSignature`:
`replace(/[^A-Z0-9]/gi, '')` (case-insensitive class) then `toUpperCase`. -/
def cleanSelectorSig (s : String) : String :=
  jsToUpper (String.mk (s.toList.filter (fun c => c.isAlpha || c.isDigit)))

/-- Ascending insertion of one string into a sorted list. -/
def insertSorted (a : String) : List String → List String
  | [] => [a]
  | b :: bs => if a ≤ b then a :: b :: bs else b :: insertSorted a bs

/-- Ascending string sort, the result of JS `Array.prototype.sort()` with
the default comparator on an array of strings. -/
def sortStrings (l : List String) : List String :=
  l.foldr insertSorted []

/-- `generateItemSignature`: normalized `"CAT:SEL:QTY_BUCKET"` strings,
sorted alphabetically. -/
def generateItemSignature (items : List LineItem) : List String :=
  sortStrings (items.map (fun item =>
    item.category ++ ":" ++ cleanSelectorSig item.selector ++ ":" ++
      qtyBucket item.quantity))

/-- `calculateJaccardSimilarity`: Jaccard coefficient of the two signature
sets, with the two empty-item special cases. -/
def calculateJaccardSimilarity (items1 items2 : List LineItem) : ℚ :=
  if items1.length = 0 && items2.length = 0 then 1
  else if items1.length = 0 || items2.length = 0 then 0
  else
    let sig1 := dedupF (generateItemSignature items1)
    let sig2 := dedupF (generateItemSignature items2)
    let inter := sig1.filter (fun x => sig2.contains x)
    let union := dedupF (sig1 ++ sig2)
    (inter.length : ℚ) / (union.length : ℚ)

/-- Guard of RULE 2 of `areLikelyDuplicates`: a General-Conditions or
Logistics container name. -/
def isGeneralMergeName (name : String) : Bool :=
  strIncludes (jsToLower name) "general" ||
  strIncludes (jsToLower name) "logistics" ||
  strIncludes (jsToLower name) "condition"

/-- `areLikelyDuplicates`: same room type, the container exclusion (only
checked when the shared type is `"unknown"`), then the Jaccard test. -/
def areLikelyDuplicates (room1 room2 : RoomData) : Bool :=
  let type1 := extractRoomType room1.name
  let type2 := extractRoomType room2.name
  if type1 ≠ type2 then false
  else if type1 = "unknown" &&
      (isGeneralMergeName room1.name || isGeneralMergeName room2.name) then
    false
  else
    SIMILARITY_THRESHOLD ≤ calculateJaccardSimilarity room1.items room2.items

/-- Item-map insertion of `mergeRooms`: key `"CAT:SEL"`, first copy enters
with a fresh id, a later copy with a larger quantity replaces the entry but
keeps the already-stored id. -/
def mergeItemInsert (m : List (String × LineItem)) (item : LineItem) :
    List (String × LineItem) :=
  let key := item.category ++ ":" ++ item.selector
  match m.lookup key with
  | none => m ++ [(key, { item with id := randomUUID })]
  | some existing =>
    if existing.quantity < item.quantity then
      m.map (fun kv => if kv.1 = key then (key, { item with id := existing.id }) else kv)
    else m

/-- `mergeRooms`: primary is the lower-numbered name (ties to the first
argument); items union keyed by `"CAT:SEL"` keeping maximal quantities;
narratives concatenate deduplicated and capped at 250 characters;
timestamps fill from whichever side has one; flagged issues union. -/
def mergeRooms (room1 room2 : RoomData) : RoomData :=
  let num1 := extractRoomNumber room1.name
  let num2 := extractRoomNumber room2.name
  let primaryRoom := if num1 ≤ num2 then room1 else room2
  let secondaryRoom := if num1 ≤ num2 then room2 else room1
  let itemMap := (primaryRoom.items ++ secondaryRoom.items).foldl mergeItemInsert []
  let narratives :=
    (dedupF [primaryRoom.narrative_synthesis, secondaryRoom.narrative_synthesis]).filter
      (fun n => n ≠ "" && jsTrim n ≠ "")
  let flags := dedupF (primaryRoom.flagged_issues ++ secondaryRoom.flagged_issues)
  { id := primaryRoom.id
    name := primaryRoom.name
    timestamp_in :=
      if primaryRoom.timestamp_in ≠ "" then primaryRoom.timestamp_in
      else secondaryRoom.timestamp_in
    timestamp_out :=
      if primaryRoom.timestamp_out ≠ "" then primaryRoom.timestamp_out
      else secondaryRoom.timestamp_out
    narrative_synthesis :=
      String.mk ((String.intercalate " " narratives).toList.take 250)
    flagged_issues := flags
    items := itemMap.map Prod.snd }

/-- Type-count thresholds of hallucination PATTERN 1. -/
def typeThresholds (type : String) : Option Nat :=
  if type = "bathroom" then some 3
  else if type = "kitchen" then some 2
  else if type = "laundry" then some 2
  else if type = "garage" then some 2
  else none

/-- Decimal rendering of the rounded percentage used in diagnostics. -/
def pctString (sim : ℚ) : String :=
  toString (jsRound (sim * 100))

/-- PATTERN 1 warnings of `detectHallucinationPatterns`: suspicious counts
per room-type bucket, iterated in first-occurrence bucket order. -/
def pattern1Warnings (rooms : List RoomData) : List String :=
  (dedupF (rooms.map (fun r => extractRoomType r.name))).foldr
    (fun type acc =>
      let typeRooms := rooms.filter (fun r => extractRoomType r.name = type)
      (match typeThresholds type with
       | some threshold =>
         if threshold < typeRooms.length then
           ["⚠️ " ++ toString typeRooms.length ++ " " ++ type ++
            "s detected - verify video shows multiple " ++ type ++ "s"]
         else []
       | none => []) ++ acc) []

/-- Inner double loop of PATTERN 2 over one type bucket. -/
def pattern2Pairs : List RoomData → List String
  | [] => []
  | r :: rest =>
    (rest.filterMap (fun other =>
      let sim := calculateJaccardSimilarity r.items other.items
      if 3/5 < sim && sim < SIMILARITY_THRESHOLD then
        some ("⚠️ \"" ++ r.name ++ "\" and \"" ++ other.name ++ "\" are " ++
          pctString sim ++ "% similar - verify they are different rooms")
      else none)) ++ pattern2Pairs rest

/-- PATTERN 2 warnings: same-bucket pairs in the 0.6–0.75 "verify manually"
similarity band. -/
def pattern2Warnings (rooms : List RoomData) : List String :=
  (dedupF (rooms.map (fun r => extractRoomType r.name))).foldr
    (fun type acc =>
      let typeRooms := rooms.filter (fun r => extractRoomType r.name = type)
      (if 1 < typeRooms.length then pattern2Pairs typeRooms else []) ++ acc) []

/-- PATTERN 3 selector: item-less rooms other than General Conditions. -/
def isEmptyNonGeneral (r : RoomData) : Bool :=
  r.items.length = 0 && !(strIncludes (jsToLower r.name) "general")

/-- PATTERN 3 warning: informational listing of inspected-no-damage rooms. -/
def pattern3Warnings (rooms : List RoomData) : List String :=
  let emptyRooms := rooms.filter isEmptyNonGeneral
  if 0 < emptyRooms.length then
    ["ℹ️ " ++ toString emptyRooms.length ++ " room(s) inspected with no damage: " ++
     String.intercalate ", " (emptyRooms.map (fun r => r.name))]
  else []

/-- Diagnostic warnings of `detectHallucinationPatterns` (the narrative
side effect on empty rooms is modelled separately by
`markEmptyRooms`; it does not feed back into these warnings, which read
each room's pre-mutation state). -/
def detectHallucinationWarnings (rooms : List RoomData) : List String :=
  pattern1Warnings rooms ++ pattern2Warnings rooms ++ pattern3Warnings rooms

/-- Narrative side effect of PATTERN 3: item-less non-general rooms get the
`Inspected - No Visible Damage.` prefix unless already present.  In the
source this is an in-place mutation of the room objects shared with the
caller's list, so every later step of `sanitizeRooms` sees the updated
narratives. -/
def markEmptyRooms (rooms : List RoomData) : List RoomData :=
  rooms.map (fun r =>
    if isEmptyNonGeneral r &&
        !(strIncludes r.narrative_synthesis "No Visible Damage") then
      { r with narrative_synthesis :=
          "Inspected - No Visible Damage. " ++ r.narrative_synthesis }
    else r)

/-- Container-room predicate used by `sanitizeRooms` to separate the
General Conditions room before merging. -/
def isGeneralLowName (name : String) : Bool :=
  strIncludes (jsToLower name) "general" || strIncludes (jsToLower name) "logistics"

/-- Removal of the first match, the effect of
`rooms.filter(r => r !== generalRoom)` on a list of distinct objects. -/
def removeFirst {α : Type} (p : α → Bool) : List α → List α
  | [] => []
  | x :: xs => if p x then xs else x :: removeFirst p xs

/-- Merge-pass warning string. -/
def mergeWarning (origName otherName curName : String) (sim : ℚ) : String :=
  "🔀 Merged \"" ++ origName ++ "\" + \"" ++ otherName ++ "\" (" ++
    pctString sim ++ "% similar) → \"" ++ curName ++ "\""

/-- Inner `j` loop of one merge pass: scan the rooms after position `i`,
skipping consumed ids, folding duplicates into `current`.  Returns the
final `current`, the consumed-id set, the number of merges, and the
appended warnings. -/
def innerScan (origName : String) (current : RoomData) :
    List RoomData → List String → List String →
    RoomData × List String × Nat × List String
  | [], consumed, warns => (current, consumed, 0, warns)
  | j :: js, consumed, warns =>
    if consumed.contains j.id then innerScan origName current js consumed warns
    else if areLikelyDuplicates current j then
      let sim := calculateJaccardSimilarity current.items j.items
      let warns' := warns ++ [mergeWarning origName j.name current.name sim]
      let step := innerScan origName (mergeRooms current j) js (j.id :: consumed) warns'
      (step.1, step.2.1, step.2.2.1 + 1, step.2.2.2)
    else innerScan origName current js consumed warns

/-- Outer `i` loop of one merge pass: rooms whose id is consumed are
skipped, every other room absorbs its duplicates from the remaining suffix
and is pushed. -/
def outerScan : List RoomData → List String → List String →
    List RoomData × Nat × List String
  | [], _, warns => ([], 0, warns)
  | r :: rest, consumed, warns =>
    if consumed.contains r.id then outerScan rest consumed warns
    else
      let inner := innerScan r.name r rest consumed warns
      let next := outerScan rest (r.id :: inner.2.1) inner.2.2.2
      (inner.1 :: next.1, inner.2.2.1 + next.2.1, next.2.2)

/-- Fixed-point iteration of merge passes, bounded by the remaining fuel
(`MAX_MERGE_PASSES` at the top call); stops as soon as a pass merges
nothing. -/
def mergeLoop : Nat → List RoomData → Nat → List String →
    List RoomData × Nat × List String
  | 0, rooms, mergeCount, warns => (rooms, mergeCount, warns)
  | fuel + 1, rooms, mergeCount, warns =>
    let pass := outerScan rooms [] warns
    if 0 < pass.2.1 then mergeLoop fuel pass.1 (mergeCount + pass.2.1) pass.2.2
    else (pass.1, mergeCount, pass.2.2)

/-- Result triple of `sanitizeRooms`. -/
structure SanitizeResult where
  rooms : List RoomData
  warnings : List String
  mergeCount : Nat
deriving Repr, DecidableEq

/-- `sanitizeRooms`: early return on an empty list, diagnostics (with the
empty-room narrative side effect), separation of the first General
Conditions room, the bounded iterative merge pass, reassembly with the
container first, and the summary warning. -/
def sanitizeRooms (rooms : List RoomData) : SanitizeResult :=
  if rooms.isEmpty then ⟨[], [], 0⟩
  else
    let warnings := detectHallucinationWarnings rooms
    let rooms' := markEmptyRooms rooms
    let generalRoom := rooms'.find? (fun r => isGeneralLowName r.name)
    let workingRooms := removeFirst (fun r => isGeneralLowName r.name) rooms'
    let looped := mergeLoop MAX_MERGE_PASSES workingRooms 0 warnings
    let finalRooms :=
      match generalRoom with
      | some g => g :: looped.1
      | none => looped.1
    let finalWarnings :=
      if 0 < looped.2.1 then
        ("✅ Deduplication complete: " ++ toString looped.2.1 ++
          " ghost room(s) merged") :: looped.2.2
      else looped.2.2
    ⟨finalRooms, finalWarnings, looped.2.1⟩

/-! ## Logistics engine (src/utils/logisticsEngine.ts) -/

/-- `createLogisticsItem`: the standard shape of engine-generated items. -/
def createLogisticsItem (cat sel desc : String) (qty : ℚ) (unit : String) :
    LineItem :=
  { id := randomUUID
    category := cat
    selector := sel
    code := cat ++ " " ++ sel
    description := desc
    activity := "+"
    quantity := qty
    quantity_inference := "Auto-Calculated"
    unit := unit
    reasoning := "Logistics Engine Rule: Calculated based on scope volume/complexity."
    confidence := "High" }

/-- Container-room predicate of the logistics engine (upper-cased name
containing GENERAL or LOGISTICS). -/
def isGeneralUpperName (name : String) : Bool :=
  strIncludes (jsToUpper name) "GENERAL" || strIncludes (jsToUpper name) "LOGISTICS"

/-- The fresh General Conditions room created when none is found. -/
def freshGeneralRoom : RoomData :=
  { id := randomUUID
    name := "General Conditions"
    timestamp_in := ""
    timestamp_out := ""
    narrative_synthesis :=
      "Logistics and project management items inferred from scope severity and complexity."
    flagged_issues := []
    items := [] }

/-- Rule 1 data: explicit demolition volume — quantities of items whose
activity is REMOVE (the source tests both the literal `'-'` and
`ActivityCode.REMOVE`, the same string) or whose category is `DMO`/`DMG`;
`i.quantity || 0` needs no separate case since quantities are total here. -/
def explicitDemoQty (rooms : List RoomData) : ℚ :=
  (rooms.map (fun r => (r.items.map (fun i =>
    if i.activity = "-" || i.category = "DMO" || i.category = "DMG" then
      i.quantity
    else 0)).sum)).sum

/-- Rule 10 data: implicit demolition volume from install items (flooring
and drywall add their own quantity, each cabinet install adds 20 SF). -/
def implicitDemoQty (rooms : List RoomData) : ℚ :=
  (rooms.map (fun r => (r.items.map (fun i =>
    (if ["FCW", "FCV", "FCC", "FCT"].contains i.category && i.activity = "+" then
      i.quantity else 0) +
    (if i.category = "DRY" && i.activity = "+" then i.quantity else 0) +
    (if i.category = "CAB" && i.activity = "+" then 20 else 0))).sum)).sum

/-- Combined demolition total after RULE 10 folds the implicit volume into
`totalDemoQty` for every downstream volume rule. -/
def totalDemoQty (rooms : List RoomData) : ℚ :=
  explicitDemoQty rooms + implicitDemoQty rooms

/-- Mitigation-job test: Emergency job type, or any water-category item
anywhere in the input rooms. -/
def isMitigationJob (rooms : List RoomData) (jobType : String) : Bool :=
  jobType = "E" || rooms.any (fun r => r.items.any (fun i => i.category = "WTR"))

/-- Rule 9 data: rooms (other than General Conditions) with at least three
items, a proxy for contents that had to be moved. -/
def roomsWithContents (rooms : List RoomData) : Nat :=
  (rooms.filter (fun r =>
    !(strIncludes (jsToUpper r.name) "GENERAL") && 3 ≤ r.items.length)).length

/-- Rule 3 data: distinct non-logistics trade categories. -/
def uniqueCats (rooms : List RoomData) : List String :=
  dedupF ((rooms.map (fun r => r.items.map (fun i => i.category))).flatten.filter
    (fun c => !(["DMO", "CLN", "TMP", "LAB", "WTR"].contains c)))

/-- Rule 6 selector normalization: `selector.replace(/[^A-Z]/g, '')` keeps
only already-uppercase letters. -/
def equipSelector (s : String) : String :=
  String.mk (s.toList.filter (fun c => 'A' ≤ c && c ≤ 'Z'))

/-- Rule 6 data: does an item carry drying equipment? -/
def isEquipmentItem (i : LineItem) : Bool :=
  i.category = "WTR" && ["DHU", "DRY", "DHM", "AFAN"].contains (equipSelector i.selector)

/-- Rule 6 data: rooms containing drying equipment. -/
def roomsWithEquip (rooms : List RoomData) : Nat :=
  (rooms.filter (fun r => r.items.any isEquipmentItem)).length

/-- RULE 1: debris removal — dumpster above 500 combined units, pickup
loads (ceil of total/150, minimum 1) for a positive total at most 500. -/
def debrisRuleItems (total : ℚ) (existingCodes : List String) : List LineItem :=
  if 500 < total then
    if existingCodes.contains "DMO DTRLR" then []
    else [createLogisticsItem "DMO" "DTRLR"
      "Dumpster load - approx. 30 yards, inc. dump fees" 1 "EA"]
  else if 0 < total then
    if existingCodes.contains "DMO DBR" then []
    else [createLogisticsItem "DMO" "DBR" "Debris Removal - pickup or trailer load"
      ((max 1 (jsCeil (total / 150)) : ℤ) : ℚ) "EA"]
  else []

/-- RULE 2: portable toilet on a fire/smoke loss or severity at least 9. -/
def toiletRuleItems (severity : ℚ) (lossType : String) (existingCodes : List String) :
    List LineItem :=
  if (strIncludes (jsToLower lossType) "fire" || strIncludes (jsToLower lossType) "smoke"
      || 9 ≤ severity) && !(existingCodes.contains "TMP TLT") then
    [createLogisticsItem "TMP" "TLT" "Portable toilet rental - per month" 1 "MO"]
  else []

/-- RULE 3: supervision hours when more than two non-logistics trades. -/
def supervisionRuleItems (rooms : List RoomData) (existingCodes : List String) :
    List LineItem :=
  if 2 < (uniqueCats rooms).length && !(existingCodes.contains "LAB SUP") then
    [createLogisticsItem "LAB" "SUP"
      ("Residential Supervision (" ++ toString (uniqueCats rooms).length ++ " trades)")
      (((uniqueCats rooms).length * 4 : Nat) : ℚ) "HR"]
  else []

/-- RULE 4: temporary fencing for exterior context above severity 7. -/
def fencingRuleItems (severity : ℚ) (context : String) (existingCodes : List String) :
    List LineItem :=
  if context = "Exterior" && 7 < severity && !(existingCodes.contains "TMP FNC") then
    [createLogisticsItem "TMP" "FNC" "Temporary fencing - chain link" 100 "LF"]
  else []

/-- RULE 5: containment barrier and negative air fan. -/
def containmentRuleItems (total severity : ℚ) (lossType : String)
    (existingCodes : List String) : List LineItem :=
  if 0 < total || 5 ≤ severity || strIncludes (jsToLower lossType) "mold" ||
      strIncludes (jsToLower lossType) "sewage" then
    (if existingCodes.contains "WTR BARR" then []
     else [createLogisticsItem "WTR" "BARR" "Containment Barrier - plastic" 150 "SF"]) ++
    (if existingCodes.contains "WTR NAFAN" then []
     else [createLogisticsItem "WTR" "NAFAN" "Negative air fan/scrubber" 3 "EA"])
  else []

/-- RULE 6: equipment setup when drying equipment is present. -/
def equipmentRuleItems (rooms : List RoomData) (existingCodes : List String) :
    List LineItem :=
  if rooms.any (fun r => r.items.any isEquipmentItem) &&
      !(existingCodes.contains "WTR EQ") then
    [createLogisticsItem "WTR" "EQ" "Equipment setup, take down, and monitoring"
      (max 2 (2 + (roomsWithEquip rooms : ℚ) * (1/2))) "HR"]
  else []

/-- RULE 7: emergency service call — the code tests only the job type. -/
def emergencyRuleItems (jobType : String) (existingCodes : List String) :
    List LineItem :=
  if jobType = "E" && !(existingCodes.contains "WTR ESRVD") then
    [createLogisticsItem "WTR" "ESRVD"
      "Emergency service call - during business hours" 1 "EA"]
  else []

/-- RULE 8: floor protection when demolition or mitigation work happens. -/
def maskingRuleItems (rooms : List RoomData) (total : ℚ) (jobType : String)
    (existingCodes : List String) : List LineItem :=
  if (0 < total || isMitigationJob rooms jobType) &&
      !(existingCodes.contains "DMO MASKFL") then
    [createLogisticsItem "DMO" "MASKFL"
      "Masking - floor - per square foot (Walkway)" 150 "SF"]
  else []

/-- RULE 9: content manipulation. -/
def contentRuleItems (rooms : List RoomData) (jobType : String)
    (existingCodes : List String) : List LineItem :=
  if (isMitigationJob rooms jobType || 100 < implicitDemoQty rooms) &&
      0 < roomsWithContents rooms && !(existingCodes.contains "CON ROOM") then
    [createLogisticsItem "CON" "ROOM"
      "Content Manipulation - Average Room (Move & Reset)"
      ((roomsWithContents rooms : Nat) : ℚ) "EA"]
  else []

/-- The `newItems` list pushed by the logic rules, in rule order.  Every
rule is gated by its trigger condition and the absence of the generated
code from `existingCodes` (the codes already present in the General
Conditions room). -/
def logisticsNewItems (rooms : List RoomData) (severity : ℚ)
    (context lossType jobType : String) (existingCodes : List String) :
    List LineItem :=
  debrisRuleItems (totalDemoQty rooms) existingCodes ++
  toiletRuleItems severity lossType existingCodes ++
  supervisionRuleItems rooms existingCodes ++
  fencingRuleItems severity context existingCodes ++
  containmentRuleItems (totalDemoQty rooms) severity lossType existingCodes ++
  equipmentRuleItems rooms existingCodes ++
  emergencyRuleItems jobType existingCodes ++
  maskingRuleItems rooms (totalDemoQty rooms) jobType existingCodes ++
  contentRuleItems rooms jobType existingCodes

/-- Update `generalRoom.items = [...generalRoom.items, ...newItems]`. -/
def appendItems (r : RoomData) (newItems : List LineItem) : RoomData :=
  { r with items := r.items ++ newItems }

/-- `enrichScopeWithLogistics`: locate or create the General Conditions
room, then append the gated rule output to its item list, leaving every
other room untouched. -/
def enrichScopeWithLogistics (rooms : List RoomData) (severity : ℚ)
    (context lossType jobType : String) : List RoomData :=
  match h : rooms.findIdx? (fun r => isGeneralUpperName r.name) with
  | some idx =>
    let generalRoom := rooms.get ⟨idx, (List.findIdx?_eq_some_iff_findIdx_eq.mp h).1⟩
    rooms.set idx (appendItems generalRoom
      (logisticsNewItems rooms severity context lossType jobType
        (generalRoom.items.map (fun i => i.code))))
  | none =>
    appendItems freshGeneralRoom
      (logisticsNewItems rooms severity context lossType jobType []) :: rooms

/-! ## Specification-side definitions and concrete inputs -/

/-- Formalization of the spec's words "the room whose name contains the
lower trailing ordinal number (default 999 if none)": the last run of
digits in the name, read as a number, 999 when the name has no digit.
Kept separate from `extractRoomNumber`, which the source implements with
`name.match(/\d+/)` (the first run of digits). -/
def specTrailingOrdinal (name : String) : Nat :=
  let rev := name.toList.reverse.dropWhile (fun c => !c.isDigit)
  match rev with
  | [] => 999
  | _ =>
    ((rev.takeWhile Char.isDigit).reverse).foldl (fun n c => n * 10 + (c.toNat - 48)) 0

/-- Concrete line item used by witnesses and counterexamples. -/
def sampleItem (cat sel act : String) (q : ℚ) : LineItem :=
  { id := "item-1", category := cat, selector := sel,
    code := cat ++ " " ++ sel, description := "desc", activity := act,
    quantity := q, quantity_inference := "Full Room", unit := "EA",
    reasoning := "AI reasoning", confidence := "High" }

/-- Concrete room used by witnesses and counterexamples. -/
def sampleRoom (id name : String) (items : List LineItem) : RoomData :=
  { id := id, name := name, timestamp_in := "", timestamp_out := "",
    narrative_synthesis := "Observed damage.", flagged_issues := [],
    items := items }

/-- The codes the logistics rules can emit, in emission order. -/
def logisticsRuleCodes : List String :=
  ["DMO DTRLR", "DMO DBR", "TMP TLT", "LAB SUP", "TMP FNC", "WTR BARR",
   "WTR NAFAN", "WTR EQ", "WTR ESRVD", "DMO MASKFL", "CON ROOM"]

/-! ## Theorems

Batteries marks the `Rat` arithmetic operations `@[irreducible]`; restoring
the ordinary reducibility lets concrete runs of the embedded pipeline be
evaluated by `decide`. -/

attribute [local semireducible] Rat.add Rat.mul Rat.sub Rat.inv Rat.ofScientific

/-- C1: the spec (and the engine's own header comment, "7. Emergency
Service: If mitigation job.") says the emergency-service item `WTR ESRVD`
is added when the job type is `'E'` OR any water-category item exists, but
rule 7 of the code tests only `jobType === 'E'`: on a job of type `'R'`
with a `WTR` item in a room, no `WTR ESRVD` item is generated anywhere in
the output. -/
theorem C1_emergency_rule_ignores_water_items :
    ((enrichScopeWithLogistics
        [sampleRoom "r1" "Kitchen" [sampleItem "WTR" "EXTW" "+" 10]]
        3 "Interior" "Water" "R").all
      (fun r => r.items.all (fun i => i.code != "WTR ESRVD"))) = true ∧
    isMitigationJob [sampleRoom "r1" "Kitchen" [sampleItem "WTR" "EXTW" "+" 10]] "R" = true := by
  constructor <;> decide

/-- C2 counterexample: `enrichScopeWithLogistics` is not idempotent.  On an
empty room list at severity 5 the first run creates a General Conditions
room holding the two containment items; re-running on that output adds the
previously absent `DMO MASKFL` code, because the containment items it
added are water-category items that make `isMitigationJob` true on the
second pass. -/
theorem C2_counterexample :
    (enrichScopeWithLogistics [] 5 "Interior" "Water" "R").map
        (fun r => r.items.map (fun i => i.code)) = [["WTR BARR", "WTR NAFAN"]] ∧
    (enrichScopeWithLogistics (enrichScopeWithLogistics [] 5 "Interior" "Water" "R")
        5 "Interior" "Water" "R").map (fun r => r.items.map (fun i => i.code)) =
      [["WTR BARR", "WTR NAFAN", "DMO MASKFL"]] := by
  constructor <;> decide

/-- C3 counterexample: with two rooms both named "General Conditions" in
the input, the output of `sanitizeRooms` contains two container rooms (only
the first is separated; the second survives the merge passes untouched),
and `areLikelyDuplicates` does treat container rooms as merge candidates
when their name's bucket is not `"unknown"`: two rooms named "Logistics"
(bucket `"logistics"`) with equal item sets are reported as duplicates. -/
theorem C3_counterexample :
    ((sanitizeRooms [sampleRoom "g1" "General Conditions" [],
        sampleRoom "g2" "General Conditions" []]).rooms.countP
      (fun r => isGeneralLowName r.name)) = 2 ∧
    areLikelyDuplicates (sampleRoom "a" "Logistics" [])
      (sampleRoom "b" "Logistics" []) = true := by
  constructor <;> decide

/-- C4 counterexample: an item with empty category and selector sanitizes
to empty strings, not to the sentinel `"UNK"`; and the trailing dash is
not stripped before the alias lookup — for category `"FLR"`, selector
`"-"`, the lookup runs on the dashed key `"FLR -"` and misses, leaving
category `"FLR"`, whereas a pre-lookup strip would have hit the `"FLR"`
alias and produced category `"FCC"`. -/
theorem C4_counterexample :
    (sanitizeLineItem (sampleItem "" "" "+" 1)).category = "" ∧
    (sanitizeLineItem (sampleItem "" "" "+" 1)).category ≠ "UNK" ∧
    (sanitizeLineItem (sampleItem "" "" "+" 1)).selector = "" ∧
    (sanitizeLineItem (sampleItem "FLR" "-" "+" 1)).category = "FLR" ∧
    (sanitizeLineItem (sampleItem "FLR" "-" "+" 1)).category ≠
      (sanitizeLineItem (sampleItem "FLR" "" "+" 1)).category := by
  refine ⟨by decide, by decide, by decide, by decide, by decide⟩

/-- C5 counterexample: `extractRoomNumber` reads the FIRST run of digits,
not the trailing ordinal.  For "Bathroom 3 Area 1" (trailing ordinal 1)
versus "Bathroom 2" (trailing ordinal 2) the claim predicts the first room
as primary, but the merge keeps the id and name of "Bathroom 2". -/
theorem C5_counterexample :
    specTrailingOrdinal "Bathroom 3 Area 1" = 1 ∧
    specTrailingOrdinal "Bathroom 2" = 2 ∧
    (mergeRooms (sampleRoom "a" "Bathroom 3 Area 1" [])
      (sampleRoom "b" "Bathroom 2" [])).name = "Bathroom 2" ∧
    (mergeRooms (sampleRoom "a" "Bathroom 3 Area 1" [])
      (sampleRoom "b" "Bathroom 2" [])).id = "b" := by
  refine ⟨by decide, by decide, by decide, by decide⟩

/-- C6 counterexample: `sanitizeLineItem` is not idempotent.  Cleaning
category `"PN T"` to `"PNT"` happens after the alias/override steps, so the
first pass returns selector `"WALL"`, and only the second pass hits the
`"PNT WALL"` alias and rewrites the selector to `"P2"`. -/
theorem C6_counterexample :
    (sanitizeLineItem (sampleItem "PN T" "WALL" "+" 1)).selector = "WALL" ∧
    (sanitizeLineItem (sanitizeLineItem (sampleItem "PN T" "WALL" "+" 1))).selector = "P2" ∧
    sanitizeLineItem (sanitizeLineItem (sampleItem "PN T" "WALL" "+" 1)) ≠
      sanitizeLineItem (sampleItem "PN T" "WALL" "+" 1) := by
  refine ⟨by decide, by decide, by decide⟩

/-- C10 counterexample: room conservation fails when two rooms share an
id.  With rooms "Kitchen" and "Bedroom" both carrying id "x" (different
buckets, so no merge fires), the consumed-id set of the merge pass silently
drops the second room: the output has one room and merge count 0, although
the input had two rooms. -/
theorem C10_counterexample :
    (sanitizeRooms [sampleRoom "x" "Kitchen" [], sampleRoom "x" "Bedroom" []]).rooms.length = 1 ∧
    (sanitizeRooms [sampleRoom "x" "Kitchen" [], sampleRoom "x" "Bedroom" []]).mergeCount = 0 ∧
    [sampleRoom "x" "Kitchen" [], sampleRoom "x" "Bedroom" []].length = 2 := by
  refine ⟨by decide, by decide, by decide⟩

/-- C7: in the debris-hauling rule, a combined demolition total of exactly
500 triggers the pickup/trailer branch `DMO DBR` with quantity
`ceil(total/150)` (minimum 1), i.e. exactly 4 loads; any total above 500
triggers the single dumpster load `DMO DTRLR` with quantity 1; and every
positive total at most 500 falls in the pickup branch — the boundary is
inclusive on the pickup side. -/
theorem C7_debris_thresholds (rooms : List RoomData) (severity : ℚ)
    (context lossType jobType : String) (existingCodes : List String) :
    (totalDemoQty rooms = 500 → existingCodes.contains "DMO DBR" = false →
      ∃ i ∈ logisticsNewItems rooms severity context lossType jobType existingCodes,
        i.code = "DMO DBR" ∧ i.quantity = 4) ∧
    (500 < totalDemoQty rooms → existingCodes.contains "DMO DTRLR" = false →
      ∃ i ∈ logisticsNewItems rooms severity context lossType jobType existingCodes,
        i.code = "DMO DTRLR" ∧ i.quantity = 1) ∧
    (0 < totalDemoQty rooms → totalDemoQty rooms ≤ 500 →
      existingCodes.contains "DMO DBR" = false →
      ∃ i ∈ logisticsNewItems rooms severity context lossType jobType existingCodes,
        i.code = "DMO DBR" ∧
          i.quantity = ((max 1 (jsCeil (totalDemoQty rooms / 150)) : ℤ) : ℚ)) := by
  have embed : ∀ i, i ∈ debrisRuleItems (totalDemoQty rooms) existingCodes →
      i ∈ logisticsNewItems rooms severity context lossType jobType existingCodes := by
    intro i h
    unfold logisticsNewItems
    exact List.mem_append_left _ (List.mem_append_left _ (List.mem_append_left _
      (List.mem_append_left _ (List.mem_append_left _ (List.mem_append_left _
      (List.mem_append_left _ (List.mem_append_left _ h)))))))
  refine ⟨?_, ?_, ?_⟩
  · intro h500 habs
    refine ⟨createLogisticsItem "DMO" "DBR" "Debris Removal - pickup or trailer load"
      ((max 1 (jsCeil (totalDemoQty rooms / 150)) : ℤ) : ℚ) "EA", embed _ ?_, rfl, ?_⟩
    · unfold debrisRuleItems
      rw [habs, h500]
      norm_num
    · rw [h500]
      decide
  · intro hgt habs
    refine ⟨createLogisticsItem "DMO" "DTRLR"
      "Dumpster load - approx. 30 yards, inc. dump fees" 1 "EA", embed _ ?_, rfl, rfl⟩
    unfold debrisRuleItems
    rw [if_pos hgt, habs]
    simp
  · intro hpos hle habs
    refine ⟨createLogisticsItem "DMO" "DBR" "Debris Removal - pickup or trailer load"
      ((max 1 (jsCeil (totalDemoQty rooms / 150)) : ℤ) : ℚ) "EA", embed _ ?_, rfl, rfl⟩
    unfold debrisRuleItems
    rw [if_neg (not_lt.mpr hle), if_pos hpos, habs]
    simp

/-- Witness for C7 at a concrete input with demolition total exactly 500. -/
theorem C7_witness :
    (totalDemoQty [sampleRoom "r1" "Kitchen" [sampleItem "DMO" "X" "-" 500]] = 500) ∧
    (∃ i ∈ logisticsNewItems [sampleRoom "r1" "Kitchen" [sampleItem "DMO" "X" "-" 500]]
        1 "Interior" "Water" "R" [],
      i.code = "DMO DBR" ∧ i.quantity = 4) :=
  ⟨by decide, (C7_debris_thresholds _ 1 "Interior" "Water" "R" []).1 (by decide) (by decide)⟩

/-- C9: for an item list containing the `WTR EXTW` extraction key but not
`WTR GRD`, and not independently violating the carpet/pad pairing, the gap
auditor returns exactly one warning, the germicide/antimicrobial one. -/
theorem C9_extraction_gap_warning (items : List LineItem)
    (h1 : (items.map (fun i => i.category ++ " " ++ i.selector)).contains "WTR EXTW" = true)
    (h2 : (items.map (fun i => i.category ++ " " ++ i.selector)).contains "WTR GRD" = false)
    (h3 : (items.map (fun i => i.category ++ " " ++ i.selector)).contains "FCC AV" = true →
      (items.map (fun i => i.category ++ " " ++ i.selector)).contains "FCC PAD" = true) :
    validateScopeGaps items =
      ["Audit Flag: Water Extraction present but Germicide (WTR GRD) is missing."] := by
  simp only [validateScopeGaps, h1, h2]
  by_cases hav : (items.map (fun i => i.category ++ " " ++ i.selector)).contains "FCC AV" = true
  · rw [hav, h3 hav]
    simp
  · simp only [Bool.not_eq_true] at hav
    rw [hav]
    simp

/-- Witness for C9 at a one-item extraction scope. -/
theorem C9_witness :
    ((([sampleItem "WTR" "EXTW" "+" 10]).map
      (fun i => i.category ++ " " ++ i.selector)).contains "WTR EXTW" = true) ∧
    validateScopeGaps [sampleItem "WTR" "EXTW" "+" 10] =
      ["Audit Flag: Water Extraction present but Germicide (WTR GRD) is missing."] :=
  ⟨by decide, C9_extraction_gap_warning _ (by decide) (by decide) (by decide)⟩

/-- C5 amended: when `mergeRooms` merges two rooms, the room whose name
contains the lower FIRST run of digits (`name.match(/\d+/)`, defaulting to
999 when the name has no digit) becomes primary — not the trailing
ordinal — and the merged result carries that primary room's id and name;
on a tie the first argument wins. -/
theorem C5_amended (room1 room2 : RoomData) :
    (extractRoomNumber room1.name ≤ extractRoomNumber room2.name →
      (mergeRooms room1 room2).id = room1.id ∧
      (mergeRooms room1 room2).name = room1.name) ∧
    (extractRoomNumber room2.name < extractRoomNumber room1.name →
      (mergeRooms room1 room2).id = room2.id ∧
      (mergeRooms room1 room2).name = room2.name) := by
  constructor
  · intro h
    constructor <;> simp [mergeRooms, h]
  · intro h
    constructor <;> simp [mergeRooms, not_le.mpr h]

/-- Witness for C5 at the spec's own "Bathroom 2 beats Bathroom 3"
scenario. -/
theorem C5_witness :
    (extractRoomNumber (sampleRoom "a" "Bathroom 2" []).name ≤
      extractRoomNumber (sampleRoom "b" "Bathroom 3" []).name) ∧
    (mergeRooms (sampleRoom "a" "Bathroom 2" []) (sampleRoom "b" "Bathroom 3" [])).id = "a" ∧
    (mergeRooms (sampleRoom "a" "Bathroom 2" []) (sampleRoom "b" "Bathroom 3" [])).name
      = "Bathroom 2" :=
  ⟨by decide,
    (C5_amended (sampleRoom "a" "Bathroom 2" []) (sampleRoom "b" "Bathroom 3" [])).1 (by decide)⟩

/-- C4 amended: an item whose category and selector are both empty
sanitizes to empty strings (not to the sentinel `"UNK"`), with confidence
downgraded to Low because the empty category is not in the dictionary;
the trailing-dash strip happens only after the alias lookup misses on the
un-stripped key (see `C4_counterexample` for the lookup-order evidence). -/
theorem C4_amended (item : LineItem) (h1 : item.category = "") (h2 : item.selector = "") :
    (sanitizeLineItem item).category = "" ∧ (sanitizeLineItem item).selector = "" ∧
    (sanitizeLineItem item).confidence = "Low" := by
  have hkey : jsTrim (jsToUpper (item.category ++ " " ++ item.selector)) = "" := by
    rw [h1, h2]; decide
  unfold sanitizeLineItem
  rw [hkey]
  have halias : aliasLookup "" = none := by decide
  dsimp only
  rw [halias]
  dsimp only
  rw [h1, h2]
  exact ⟨rfl, rfl, rfl⟩

/-- Witness for C4 at a concrete blank-coded item. -/
theorem C4_witness :
    ((sampleItem "" "" "+" 1).category = "") ∧
    ((sanitizeLineItem (sampleItem "" "" "+" 1)).category = "" ∧
      (sanitizeLineItem (sampleItem "" "" "+" 1)).selector = "" ∧
      (sanitizeLineItem (sampleItem "" "" "+" 1)).confidence = "Low") :=
  ⟨rfl, C4_amended (sampleItem "" "" "+" 1) (by decide) (by decide)⟩

/-- C8: `enrichScopeWithLogistics` appends its newly generated items only
to the General Conditions room (the room found by index, or a freshly
created container prepended to the list) and leaves every other room
identical to its counterpart in the input — same id, name, narrative,
flags, and items. -/
theorem C8_frame (rooms : List RoomData) (severity : ℚ)
    (context lossType jobType : String) :
    (∀ idx g, rooms.findIdx? (fun r => isGeneralUpperName r.name) = some idx →
      rooms[idx]? = some g →
      enrichScopeWithLogistics rooms severity context lossType jobType =
        rooms.set idx (appendItems g
          (logisticsNewItems rooms severity context lossType jobType
            (g.items.map (fun i => i.code)))) ∧
      ∀ j, j ≠ idx →
        (enrichScopeWithLogistics rooms severity context lossType jobType)[j]? =
          rooms[j]?) ∧
    (rooms.findIdx? (fun r => isGeneralUpperName r.name) = none →
      enrichScopeWithLogistics rooms severity context lossType jobType =
        appendItems freshGeneralRoom
          (logisticsNewItems rooms severity context lossType jobType []) :: rooms) := by
  constructor
  · intro idx g hfind hget
    have h1 : enrichScopeWithLogistics rooms severity context lossType jobType =
        rooms.set idx (appendItems g
          (logisticsNewItems rooms severity context lossType jobType
            (g.items.map (fun i => i.code)))) := by
      unfold enrichScopeWithLogistics
      split
      · rename_i idx' h'
        rw [hfind] at h'
        injection h' with h''
        subst h''
        obtain ⟨hlt, hgeq⟩ := List.getElem?_eq_some.mp hget
        have hg : rooms.get ⟨idx, hlt⟩ = g := hgeq
        rw [hg]
      · rename_i h'
        rw [hfind] at h'
        exact absurd h' (by simp)
    refine ⟨h1, ?_⟩
    intro j hj
    rw [h1]
    exact List.getElem?_set_ne (fun h => hj h.symm)
  · intro hnone
    unfold enrichScopeWithLogistics
    split
    · rename_i idx' h'
      rw [hnone] at h'
      exact absurd h' (by simp)
    · rfl

/-- Witness for C8 on a two-room input whose container sits at index 1. -/
theorem C8_witness :
    ([sampleRoom "k" "Kitchen" [], sampleRoom "g" "General Conditions" []].findIdx?
      (fun r => isGeneralUpperName r.name) = some 1) ∧
    (enrichScopeWithLogistics
        [sampleRoom "k" "Kitchen" [], sampleRoom "g" "General Conditions" []]
        5 "Interior" "Water" "R" =
      [sampleRoom "k" "Kitchen" [], sampleRoom "g" "General Conditions" []].set 1
        (appendItems (sampleRoom "g" "General Conditions" [])
          (logisticsNewItems
            [sampleRoom "k" "Kitchen" [], sampleRoom "g" "General Conditions" []]
            5 "Interior" "Water" "R"
            ((sampleRoom "g" "General Conditions" []).items.map (fun i => i.code)))) ∧
      ∀ j, j ≠ 1 →
        (enrichScopeWithLogistics
          [sampleRoom "k" "Kitchen" [], sampleRoom "g" "General Conditions" []]
          5 "Interior" "Water" "R")[j]? =
        [sampleRoom "k" "Kitchen" [], sampleRoom "g" "General Conditions" []][j]?) :=
  ⟨by decide,
    (C8_frame [sampleRoom "k" "Kitchen" [], sampleRoom "g" "General Conditions" []]
      5 "Interior" "Water" "R").1 1 (sampleRoom "g" "General Conditions" [])
      (by decide) (by decide)⟩

/-- Bridge between `List.contains` and membership for strings. -/
theorem not_mem_of_contains_false {l : List String} {a : String}
    (h : l.contains a = false) : a ∉ l := by
  intro ha
  rw [← List.elem_iff] at ha
  exact absurd ha (by simp [List.contains] at h; simp [h])

/-- Shape lemma for the single-item logistics rules: the generated code is
the guarded one and is never already present. -/
theorem singleGuard_codes (P : Bool) (ex : List String) (c : String) (item : LineItem)
    (hcode : item.code = c) :
    List.Sublist ((if P && !(ex.contains c) then [item] else []).map
      (fun i => i.code)) [c] ∧
    ∀ i ∈ (if P && !(ex.contains c) then [item] else []),
      ex.contains i.code = false := by
  constructor
  · split
    · simp [hcode]
    · simp
  · intro i hi
    split at hi
    · rename_i h
      rw [List.mem_singleton] at hi
      subst hi
      rw [hcode]
      simpa using (Bool.and_eq_true_iff.mp h).2
    · simp at hi

/-- Rule 1 emits at most one of its two codes, never an existing one. -/
theorem debrisRule_codes (total : ℚ) (ex : List String) :
    List.Sublist ((debrisRuleItems total ex).map (fun i => i.code))
      ["DMO DTRLR", "DMO DBR"] ∧
    ∀ i ∈ debrisRuleItems total ex, ex.contains i.code = false := by
  unfold debrisRuleItems
  constructor
  · split
    · split <;> simp [createLogisticsItem]
    · split
      · split <;> simp [createLogisticsItem]
      · simp
  · intro i hi
    split at hi
    · split at hi
      · exact absurd hi (by simp)
      · rename_i hc
        rw [List.mem_singleton] at hi
        subst hi
        simpa [createLogisticsItem] using eq_false_of_ne_true hc
    · split at hi
      · split at hi
        · exact absurd hi (by simp)
        · rename_i hc
          rw [List.mem_singleton] at hi
          subst hi
          simpa [createLogisticsItem] using eq_false_of_ne_true hc
      · exact absurd hi (by simp)

/-- Rule 5 emits its two codes in order, never an existing one. -/
theorem containmentRule_codes (total severity : ℚ) (lossType : String) (ex : List String) :
    List.Sublist ((containmentRuleItems total severity lossType ex).map (fun i => i.code))
      ["WTR BARR", "WTR NAFAN"] ∧
    ∀ i ∈ containmentRuleItems total severity lossType ex,
      ex.contains i.code = false := by
  unfold containmentRuleItems
  constructor
  · split
    · rw [List.map_append]
      show List.Sublist _ (["WTR BARR"] ++ ["WTR NAFAN"])
      apply List.Sublist.append
      · split <;> simp [createLogisticsItem]
      · split <;> simp [createLogisticsItem]
    · simp
  · intro i hi
    split at hi
    · rw [List.mem_append] at hi
      rcases hi with hi | hi
      · split at hi
        · exact absurd hi (by simp)
        · rename_i hc
          rw [List.mem_singleton] at hi
          subst hi
          simpa [createLogisticsItem] using eq_false_of_ne_true hc
      · split at hi
        · exact absurd hi (by simp)
        · rename_i hc
          rw [List.mem_singleton] at hi
          subst hi
          simpa [createLogisticsItem] using eq_false_of_ne_true hc
    · exact absurd hi (by simp)

/-- Rule 2 code guard. -/
theorem toiletRule_codes (severity : ℚ) (lossType : String) (ex : List String) :
    List.Sublist ((toiletRuleItems severity lossType ex).map (fun i => i.code))
      ["TMP TLT"] ∧
    ∀ i ∈ toiletRuleItems severity lossType ex, ex.contains i.code = false :=
  singleGuard_codes _ ex "TMP TLT" _ rfl

/-- Rule 3 code guard. -/
theorem supervisionRule_codes (rooms : List RoomData) (ex : List String) :
    List.Sublist ((supervisionRuleItems rooms ex).map (fun i => i.code)) ["LAB SUP"] ∧
    ∀ i ∈ supervisionRuleItems rooms ex, ex.contains i.code = false :=
  singleGuard_codes _ ex "LAB SUP" _ rfl

/-- Rule 4 code guard. -/
theorem fencingRule_codes (severity : ℚ) (context : String) (ex : List String) :
    List.Sublist ((fencingRuleItems severity context ex).map (fun i => i.code))
      ["TMP FNC"] ∧
    ∀ i ∈ fencingRuleItems severity context ex, ex.contains i.code = false :=
  singleGuard_codes _ ex "TMP FNC" _ rfl

/-- Rule 6 code guard. -/
theorem equipmentRule_codes (rooms : List RoomData) (ex : List String) :
    List.Sublist ((equipmentRuleItems rooms ex).map (fun i => i.code)) ["WTR EQ"] ∧
    ∀ i ∈ equipmentRuleItems rooms ex, ex.contains i.code = false :=
  singleGuard_codes _ ex "WTR EQ" _ rfl

/-- Rule 7 code guard. -/
theorem emergencyRule_codes (jobType : String) (ex : List String) :
    List.Sublist ((emergencyRuleItems jobType ex).map (fun i => i.code))
      ["WTR ESRVD"] ∧
    ∀ i ∈ emergencyRuleItems jobType ex, ex.contains i.code = false :=
  singleGuard_codes _ ex "WTR ESRVD" _ rfl

/-- Rule 8 code guard. -/
theorem maskingRule_codes (rooms : List RoomData) (total : ℚ) (jobType : String)
    (ex : List String) :
    List.Sublist ((maskingRuleItems rooms total jobType ex).map (fun i => i.code))
      ["DMO MASKFL"] ∧
    ∀ i ∈ maskingRuleItems rooms total jobType ex, ex.contains i.code = false :=
  singleGuard_codes _ ex "DMO MASKFL" _ rfl

/-- Rule 9 code guard. -/
theorem contentRule_codes (rooms : List RoomData) (jobType : String) (ex : List String) :
    List.Sublist ((contentRuleItems rooms jobType ex).map (fun i => i.code))
      ["CON ROOM"] ∧
    ∀ i ∈ contentRuleItems rooms jobType ex, ex.contains i.code = false :=
  singleGuard_codes _ ex "CON ROOM" _ rfl

/-- The codes of one engine run form a sublist of the (duplicate-free)
rule-code list, and none of them is already present in the General
Conditions room. -/
theorem logisticsNewItems_codes (rooms : List RoomData) (severity : ℚ)
    (context lossType jobType : String) (ex : List String) :
    List.Sublist ((logisticsNewItems rooms severity context lossType jobType ex).map
      (fun i => i.code)) logisticsRuleCodes ∧
    ∀ i ∈ logisticsNewItems rooms severity context lossType jobType ex,
      ex.contains i.code = false := by
  have h1 := debrisRule_codes (totalDemoQty rooms) ex
  have h2 := toiletRule_codes severity lossType ex
  have h3 := supervisionRule_codes rooms ex
  have h4 := fencingRule_codes severity context ex
  have h5 := containmentRule_codes (totalDemoQty rooms) severity lossType ex
  have h6 := equipmentRule_codes rooms ex
  have h7 := emergencyRule_codes jobType ex
  have h8 := maskingRule_codes rooms (totalDemoQty rooms) jobType ex
  have h9 := contentRule_codes rooms jobType ex
  constructor
  · unfold logisticsNewItems
    show List.Sublist _
      ((((((((["DMO DTRLR", "DMO DBR"] ++ ["TMP TLT"]) ++ ["LAB SUP"]) ++ ["TMP FNC"])
        ++ ["WTR BARR", "WTR NAFAN"]) ++ ["WTR EQ"]) ++ ["WTR ESRVD"]) ++ ["DMO MASKFL"])
        ++ ["CON ROOM"])
    simp only [List.map_append]
    exact ((((((((h1.1.append h2.1).append h3.1).append h4.1).append h5.1).append
      h6.1).append h7.1).append h8.1).append h9.1)
  · intro i hi
    unfold logisticsNewItems at hi
    simp only [List.mem_append] at hi
    rcases hi with ((((((((hi | hi) | hi) | hi) | hi) | hi) | hi) | hi) | hi)
    exacts [h1.2 i hi, h2.2 i hi, h3.2 i hi, h4.2 i hi, h5.2 i hi, h6.2 i hi,
      h7.2 i hi, h8.2 i hi, h9.2 i hi]

/-- Unfolding lemma for `appendItems`. -/
theorem appendItems_items (r : RoomData) (n : List LineItem) :
    (appendItems r n).items = r.items ++ n := rfl

/-- C2 amended: `enrichScopeWithLogistics` never duplicates a code — every
room whose item codes are duplicate-free still has duplicate-free item
codes after enrichment (in particular no code already present in the
General Conditions room is inserted again).  Full idempotence fails: a
second application can add a previously absent code (`C2_counterexample`). -/
theorem C2_amended (rooms : List RoomData) (severity : ℚ)
    (context lossType jobType : String)
    (h : ∀ r ∈ rooms, (r.items.map (fun i => i.code)).Nodup) :
    ∀ r ∈ enrichScopeWithLogistics rooms severity context lossType jobType,
      (r.items.map (fun i => i.code)).Nodup := by
  intro r hr
  have hmaster : logisticsRuleCodes.Nodup := by decide
  unfold enrichScopeWithLogistics at hr
  split at hr
  · rename_i idx hfind
    rcases List.mem_or_eq_of_mem_set hr with hmem | rfl
    · exact h r hmem
    · have hg : rooms.get ⟨idx, (List.findIdx?_eq_some_iff_findIdx_eq.mp hfind).1⟩ ∈ rooms :=
        List.get_mem rooms idx _
      have hcodes := logisticsNewItems_codes rooms severity context lossType jobType
        ((rooms.get ⟨idx, (List.findIdx?_eq_some_iff_findIdx_eq.mp hfind).1⟩).items.map
          (fun i => i.code))
      rw [appendItems_items, List.map_append]
      refine List.Nodup.append (h _ hg) (hcodes.1.nodup hmaster) ?_
      intro a ha hb
      rw [List.mem_map] at hb
      obtain ⟨i, hi, rfl⟩ := hb
      exact absurd ha (not_mem_of_contains_false (hcodes.2 i hi))
  · rw [List.mem_cons] at hr
    rcases hr with rfl | hmem
    · have hcodes := logisticsNewItems_codes rooms severity context lossType jobType []
      rw [appendItems_items, List.map_append]
      refine List.Nodup.append (by simp [freshGeneralRoom]) (hcodes.1.nodup hmaster) ?_
      intro a ha
      simp [freshGeneralRoom] at ha
    · exact h _ hmem

/-- Witness for C2 amended on the empty room list. -/
theorem C2_amended_witness :
    (∀ r ∈ ([] : List RoomData), (r.items.map (fun i => i.code)).Nodup) ∧
    (∀ r ∈ enrichScopeWithLogistics [] 5 "Interior" "Water" "R",
      (r.items.map (fun i => i.code)).Nodup) :=
  ⟨by simp, C2_amended [] 5 "Interior" "Water" "R" (by simp)⟩

/-- C3 amended: the FIRST General-Conditions/Logistics container found in
the (narrative-marked) input is always the first element of
`sanitizeRooms`' output, and `areLikelyDuplicates` excludes container
rooms only when their shared bucket resolves to `"unknown"`.  The original
claim's stronger guarantees — at most one container in the output and an
unconditional merge exclusion — fail (`C3_counterexample`): a second
container room is treated as an ordinary room, and the container check is
not reached when the name resolves to a non-`"unknown"` bucket. -/
theorem C3_amended :
    (∀ (rooms : List RoomData) (g : RoomData),
      (markEmptyRooms rooms).find? (fun r => isGeneralLowName r.name) = some g →
      (sanitizeRooms rooms).rooms.head? = some g) ∧
    (∀ room1 room2 : RoomData,
      extractRoomType room1.name = extractRoomType room2.name →
      extractRoomType room1.name = "unknown" →
      (isGeneralMergeName room1.name || isGeneralMergeName room2.name) = true →
      areLikelyDuplicates room1 room2 = false) := by
  constructor
  · intro rooms g hfind
    have hne : rooms.isEmpty = false := by
      cases rooms
      · simp [markEmptyRooms] at hfind
      · rfl
    unfold sanitizeRooms
    rw [hne]
    dsimp only
    rw [hfind]
    simp
  · intro room1 room2 h1 h2 h3
    unfold areLikelyDuplicates
    dsimp only
    rw [if_neg (not_not_intro h1), if_pos (by simp [h2, h3])]

/-- Witness for C3 amended: a concrete container heads the output, and a
container room whose bucket is `"unknown"` is never a merge candidate. -/
theorem C3_witness :
    ((markEmptyRooms [sampleRoom "g1" "General Conditions" []]).find?
      (fun r => isGeneralLowName r.name) = some (sampleRoom "g1" "General Conditions" [])) ∧
    ((sanitizeRooms [sampleRoom "g1" "General Conditions" []]).rooms.head? =
      some (sampleRoom "g1" "General Conditions" [])) ∧
    (extractRoomType (sampleRoom "a" "2 Logistics" []).name = "unknown") ∧
    (areLikelyDuplicates (sampleRoom "a" "2 Logistics" [])
      (sampleRoom "b" "2 Logistics" []) = false) :=
  ⟨by decide,
    C3_amended.1 [sampleRoom "g1" "General Conditions" []]
      (sampleRoom "g1" "General Conditions" []) (by decide),
    by decide,
    C3_amended.2 (sampleRoom "a" "2 Logistics" []) (sampleRoom "b" "2 Logistics" [])
      (by decide) (by decide) (by decide)⟩

/-- ASCII uppercasing fixes characters already in `[A-Z0-9]`. -/
theorem toUpper_fixed_of_isUpperAlnum {c : Char} (h : isUpperAlnum c = true) :
    jsUpperChar c = c := by
  unfold isUpperAlnum at h
  unfold jsUpperChar
  rw [if_neg]
  simp only [Bool.or_eq_true, Bool.and_eq_true, decide_eq_true_eq] at h ⊢
  omega

/-- Mapping the case function over already-clean characters is the identity. -/
theorem map_upper_id_of_fixed {l : List Char} (h : ∀ c ∈ l, isUpperAlnum c = true) :
    l.map jsUpperChar = l := by
  induction l with
  | nil => rfl
  | cons c t ih =>
    rw [List.map_cons, toUpper_fixed_of_isUpperAlnum (h c (by simp)),
      ih (fun x hx => h x (by simp [hx]))]

/-- The aggressive cleaning of `enforceBusinessLogic` is idempotent. -/
theorem jsClean_idem (s : String) : jsClean (jsClean s) = jsClean s := by
  show String.mk ((((s.toList.map jsUpperChar).filter isUpperAlnum).map
    jsUpperChar).filter isUpperAlnum) = _
  have h1 : ((s.toList.map jsUpperChar).filter isUpperAlnum).map jsUpperChar =
      (s.toList.map jsUpperChar).filter isUpperAlnum :=
    map_upper_id_of_fixed (fun c hc => List.of_mem_filter hc)
  rw [h1, List.filter_eq_self.mpr (fun a ha => List.of_mem_filter ha)]
  rfl

/-- A list starts every extension of itself. -/
theorem isPrefixOf_append_self (m b : List Char) : m.isPrefixOf (m ++ b) = true := by
  induction m with
  | nil => simp [List.isPrefixOf]
  | cons c t ih => simp [List.isPrefixOf, ih]

/-- An explicit occurrence witnesses substring containment. -/
theorem containsSub_of_parts (m a b : List Char) :
    containsSub m (a ++ (m ++ b)) = true := by
  unfold containsSub
  rw [List.any_eq_true]
  refine ⟨m ++ b, ?_, ?_⟩
  · rw [List.mem_tails]
    exact ⟨a, rfl⟩
  · exact isPrefixOf_append_self m b

/-- Leading-whitespace removal preserves an occurrence of a nonempty
whitespace-free word. -/
theorem dropWhile_parts (m b : List Char) (hm : m ≠ [])
    (hws : ∀ c ∈ m, jsWhitespace c = false) (a : List Char) :
    ∃ a', (a ++ (m ++ b)).dropWhile jsWhitespace = a' ++ (m ++ b) := by
  induction a with
  | nil =>
    refine ⟨[], ?_⟩
    cases m with
    | nil => exact absurd rfl hm
    | cons c t =>
      rw [List.nil_append, List.cons_append, List.dropWhile_cons,
        hws c (by simp)]
      simp
  | cons c a' ih =>
    by_cases hc : jsWhitespace c = true
    · obtain ⟨a'', ha⟩ := ih
      refine ⟨a'', ?_⟩
      rw [List.cons_append, List.dropWhile_cons, hc]
      simpa using ha
    · refine ⟨c :: a', ?_⟩
      rw [List.cons_append, List.dropWhile_cons, eq_false_of_ne_true hc]
      simp

/-- Two-sided trimming preserves an occurrence of a nonempty
whitespace-free word. -/
theorem trim_parts (m : List Char) (hm : m ≠ [])
    (hws : ∀ c ∈ m, jsWhitespace c = false) (a b : List Char) :
    ∃ a' b',
      (((a ++ (m ++ b)).dropWhile jsWhitespace).reverse.dropWhile jsWhitespace).reverse
        = a' ++ (m ++ b') := by
  obtain ⟨a1, h1⟩ := dropWhile_parts m b hm hws a
  rw [h1]
  have hrev : (a1 ++ (m ++ b)).reverse = b.reverse ++ (m.reverse ++ a1.reverse) := by
    simp [List.reverse_append, List.append_assoc]
  rw [hrev]
  have hm' : m.reverse ≠ [] := by simpa using hm
  have hws' : ∀ c ∈ m.reverse, jsWhitespace c = false :=
    fun c hc => hws c (List.mem_reverse.mp hc)
  obtain ⟨a2, h2⟩ := dropWhile_parts m.reverse a1.reverse hm' hws' b.reverse
  rw [h2]
  refine ⟨a1, a2.reverse, ?_⟩
  simp [List.reverse_append, List.append_assoc]

/-- The trimmed downgrade message always contains the `Auto-Downgraded`
marker that guards re-insertion. -/
theorem marker_in_trim (r c : String) :
    strIncludes
      (jsTrim (r ++ " (Auto-Downgraded: Code " ++ c ++ " not in standard database)"))
      "Auto-Downgraded" = true := by
  unfold strIncludes jsTrim
  have hdecomp : (r ++ " (Auto-Downgraded: Code " ++ c ++
      " not in standard database)").toList =
      (r.toList ++ " (".toList) ++ ("Auto-Downgraded".toList ++
        (": Code ".toList ++ (c.toList ++ " not in standard database)".toList))) := by
    have h1 : ∀ s t : String, (s ++ t).toList = s.toList ++ t.toList := fun s t => rfl
    rw [h1, h1, h1]
    have h2 : (" (Auto-Downgraded: Code " : String).toList =
        " (".toList ++ ("Auto-Downgraded".toList ++ ": Code ".toList) := by decide
    rw [h2]
    simp [List.append_assoc]
  rw [show ∀ l : List Char, (String.mk l).toList = l from fun l => rfl]
  rw [hdecomp]
  obtain ⟨a', b', h⟩ := trim_parts "Auto-Downgraded".toList (by decide) (by decide)
    (r.toList ++ " (".toList)
    (": Code ".toList ++ (c.toList ++ " not in standard database)".toList))
  rw [h]
  exact containsSub_of_parts _ _ _

/-- Category output of `enforceBusinessLogic`. -/
theorem enforce_category (it : LineItem) :
    (enforceBusinessLogic it).category = jsClean it.category := rfl

/-- Confidence output of `enforceBusinessLogic`. -/
theorem enforce_confidence (it : LineItem) :
    (enforceBusinessLogic it).confidence =
      if !(CAT_CODE_DICTIONARY_KEYS.contains (jsClean it.category)) then "Low"
      else it.confidence := rfl

/-- Reasoning output of `enforceBusinessLogic`. -/
theorem enforce_reasoning (it : LineItem) :
    (enforceBusinessLogic it).reasoning =
      if !(CAT_CODE_DICTIONARY_KEYS.contains (jsClean it.category)) &&
          !(strIncludes it.reasoning "Auto-Downgraded") then
        jsTrim (it.reasoning ++ " (Auto-Downgraded: Code " ++ jsClean it.category ++
          " not in standard database)")
      else it.reasoning := rfl

/-- Every category produced by the alias table is in the dictionary. -/
theorem alias_cat_valid (k : String) (a : String × String)
    (h : aliasLookup k = some a) :
    CAT_CODE_DICTIONARY_KEYS.contains (jsClean a.1) = true := by
  unfold aliasLookup CODE_ALIASES at h
  simp only [List.lookup] at h
  split at h
  · cases h; decide
  · split at h
    · cases h; decide
    · split at h
      · cases h; decide
      · split at h
        · cases h; decide
        · split at h
          · cases h; decide
          · split at h
            · cases h; decide
            · split at h
              · cases h; decide
              · split at h
                · cases h; decide
                · exact Option.noConfusion h

/-- `sanitizeLineItem` is `enforceBusinessLogic` of an intermediate item
that keeps reasoning and confidence, and whose category is either the
original one or a dictionary-valid alias output. -/
theorem sanitize_as_enforce (item : LineItem) :
    ∃ w : LineItem, sanitizeLineItem item = enforceBusinessLogic w ∧
      w.reasoning = item.reasoning ∧ w.confidence = item.confidence ∧
      (w.category = item.category ∨
        CAT_CODE_DICTIONARY_KEYS.contains (jsClean w.category) = true) := by
  unfold sanitizeLineItem
  dsimp only
  cases halias : aliasLookup (jsTrim (jsToUpper (item.category ++ " " ++ item.selector))) with
  | none =>
    dsimp only
    exact ⟨_, rfl, rfl, rfl, Or.inl rfl⟩
  | some a =>
    dsimp only
    exact ⟨_, rfl, rfl, rfl, Or.inr (alias_cat_valid _ _ halias)⟩

/-- C6 amended: the reasoning and confidence fields of `sanitizeLineItem`
are idempotent — in particular the `(Auto-Downgraded: …)` marker is
appended at most once however many times the sanitizer runs, because the
first application leaves the reasoning containing the marker and the guard
then blocks every later append.  Full idempotence fails on the
category/selector fields (`C6_counterexample`). -/
theorem C6_amended (item : LineItem) :
    (sanitizeLineItem (sanitizeLineItem item)).reasoning =
      (sanitizeLineItem item).reasoning ∧
    (sanitizeLineItem (sanitizeLineItem item)).confidence =
      (sanitizeLineItem item).confidence := by
  obtain ⟨w, hw, hwr, hwc, hwcat⟩ := sanitize_as_enforce (sanitizeLineItem item)
  rw [hw]
  by_cases hv : CAT_CODE_DICTIONARY_KEYS.contains (jsClean w.category) = true
  · rw [enforce_reasoning, enforce_confidence, hv]
    simp [hwr, hwc]
  · have hcat : w.category = (sanitizeLineItem item).category := hwcat.resolve_right hv
    obtain ⟨v, hvw, hvr, hvc, hvcat⟩ := sanitize_as_enforce item
    have hyc : (sanitizeLineItem item).category = jsClean v.category := by
      rw [hvw, enforce_category]
    have hclean : jsClean w.category = (sanitizeLineItem item).category := by
      rw [hcat, hyc, jsClean_idem]
    have hv0 : CAT_CODE_DICTIONARY_KEYS.contains (jsClean w.category) = false :=
      eq_false_of_ne_true hv
    have hv1 : CAT_CODE_DICTIONARY_KEYS.contains (jsClean v.category) = false := by
      rw [← hyc, ← hclean]
      exact hv0
    have hym : strIncludes (sanitizeLineItem item).reasoning "Auto-Downgraded" = true := by
      rw [hvw, enforce_reasoning, hv1]
      by_cases hm : strIncludes v.reasoning "Auto-Downgraded" = true
      · simp [hm]
      · rw [eq_false_of_ne_true hm]
        simp only [Bool.not_false, Bool.and_true, if_pos rfl]
        exact marker_in_trim v.reasoning (jsClean v.category)
    have hyl : (sanitizeLineItem item).confidence = "Low" := by
      rw [hvw, enforce_confidence, hv1]
      simp
    constructor
    · rw [enforce_reasoning, hwr, hym, hv0]
      simp
    · rw [enforce_confidence, hv0, hwc, hyl]
      simp

/-- `contains` on a cons cell. -/
theorem contains_cons (a s : String) (S : List String) :
    (s :: S).contains a = (a == s || S.contains a) := by
  simp [List.contains]
  rfl

/-- `contains` distributes over append. -/
theorem contains_append (l1 l2 : List String) (a : String) :
    (l1 ++ l2).contains a = (l1.contains a || l2.contains a) := by
  induction l1 with
  | nil => simp [List.contains]
  | cons x t ih =>
    simp only [List.cons_append, contains_cons, ih, Bool.or_assoc]

/-- Membership implies a positive `contains` test. -/
theorem contains_of_mem {l : List String} {a : String} (h : a ∈ l) :
    l.contains a = true := by
  rw [← List.elem_iff] at h
  exact h

/-- A positive `contains` test implies membership. -/
theorem mem_of_contains {l : List String} {a : String} (h : l.contains a = true) :
    a ∈ l := by
  rw [← List.elem_iff]
  exact h

/-- Counting a disjoint disjunction splits into two counts. -/
theorem countP_or_disjoint {α : Type} (l : List α) (p q : α → Bool)
    (h : ∀ a ∈ l, ¬(p a = true ∧ q a = true)) :
    l.countP (fun a => p a || q a) = l.countP p + l.countP q := by
  induction l with
  | nil => simp
  | cons x t ih =>
    rw [List.countP_cons, List.countP_cons, List.countP_cons,
      ih (fun a ha => h a (by simp [ha]))]
    have := h x (by simp)
    cases hp : p x <;> cases hq : q x <;> simp_all <;> omega

/-- On a duplicate-free list, counting members of a duplicate-free subset
gives the subset's size. -/
theorem countP_mem_of_nodup (l S : List String) (hl : l.Nodup) (hS : S.Nodup)
    (hsub : ∀ s ∈ S, s ∈ l) : l.countP (fun x => S.contains x) = S.length := by
  induction S with
  | nil =>
    rw [List.countP_eq_zero.mpr]
    · rfl
    · intro a ha
      simp [List.contains]
  | cons s S' ih =>
    have hs : s ∉ S' := by
      intro hmem
      exact (List.nodup_cons.mp hS).1 hmem
    rw [List.countP_congr (fun a _ => by rw [contains_cons a s S'])]
    rw [countP_or_disjoint l (fun a => a == s) (fun a => S'.contains a) ?_]
    · have hcount : l.countP (fun a => a == s) = 1 := by
        have : l.count s = 1 :=
          List.count_eq_one_of_mem hl (hsub s (by simp))
        simpa [List.count] using this
      rw [hcount, ih (List.nodup_cons.mp hS).2 (fun x hx => hsub x (by simp [hx]))]
      simp [Nat.add_comm]
    · intro a _ ⟨h1, h2⟩
      exact hs (eq_of_beq h1 ▸ mem_of_contains h2)

/-- A merged room keeps the id of one of its two inputs. -/
theorem mergeRooms_id (a b : RoomData) :
    (mergeRooms a b).id = a.id ∨ (mergeRooms a b).id = b.id := by
  unfold mergeRooms
  by_cases h : extractRoomNumber a.name ≤ extractRoomNumber b.name
  · left
    simp [h]
  · right
    simp [h]

/-- Inner-loop invariant of one merge pass: the loop consumes a
duplicate-free set `S` of ids drawn from the scanned suffix, none already
consumed, performs exactly `S.length` merges, and returns a room whose id
comes from the scanned cluster. -/
theorem innerScan_spec (origName : String) :
    ∀ (js : List RoomData) (cur : RoomData) (consumed warns : List String),
    ∃ S : List String,
      (innerScan origName cur js consumed warns).2.1 = S ++ consumed ∧
      (innerScan origName cur js consumed warns).2.2.1 = S.length ∧
      (∀ s ∈ S, s ∈ js.map (fun r => r.id)) ∧
      S.Nodup ∧
      (∀ s ∈ S, s ∉ consumed) ∧
      ((innerScan origName cur js consumed warns).1.id = cur.id ∨
        (innerScan origName cur js consumed warns).1.id ∈ S) := by
  intro js
  induction js with
  | nil =>
    intro cur consumed warns
    exact ⟨[], rfl, rfl, by simp, by simp, by simp, Or.inl rfl⟩
  | cons j rest ih =>
    intro cur consumed warns
    by_cases hc : consumed.contains j.id = true
    · have heq : innerScan origName cur (j :: rest) consumed warns =
          innerScan origName cur rest consumed warns := by
        simp only [innerScan, hc, Bool.false_eq_true, Bool.true_eq_false, reduceIte, if_false, if_true]
      rw [heq]
      obtain ⟨S, h1, h2, h3, h4, h5, h6⟩ := ih cur consumed warns
      exact ⟨S, h1, h2, fun s hs => by simp [h3 s hs], h4, h5, h6⟩
    · rw [Bool.not_eq_true] at hc
      by_cases hd : areLikelyDuplicates cur j = true
      · have heq : innerScan origName cur (j :: rest) consumed warns =
            ((innerScan origName (mergeRooms cur j) rest (j.id :: consumed)
                (warns ++ [mergeWarning origName j.name cur.name
                  (calculateJaccardSimilarity cur.items j.items)])).1,
             (innerScan origName (mergeRooms cur j) rest (j.id :: consumed)
                (warns ++ [mergeWarning origName j.name cur.name
                  (calculateJaccardSimilarity cur.items j.items)])).2.1,
             (innerScan origName (mergeRooms cur j) rest (j.id :: consumed)
                (warns ++ [mergeWarning origName j.name cur.name
                  (calculateJaccardSimilarity cur.items j.items)])).2.2.1 + 1,
             (innerScan origName (mergeRooms cur j) rest (j.id :: consumed)
                (warns ++ [mergeWarning origName j.name cur.name
                  (calculateJaccardSimilarity cur.items j.items)])).2.2.2) := by
          simp only [innerScan, hc, hd, Bool.false_eq_true, Bool.true_eq_false, reduceIte, if_false, if_true]
        rw [heq]
        obtain ⟨S', h1, h2, h3, h4, h5, h6⟩ :=
          ih (mergeRooms cur j) (j.id :: consumed)
            (warns ++ [mergeWarning origName j.name cur.name
              (calculateJaccardSimilarity cur.items j.items)])
        have hjS : j.id ∉ S' := fun hmem => (h5 j.id hmem) (by simp)
        refine ⟨S' ++ [j.id], ?_, ?_, ?_, ?_, ?_, ?_⟩
        · show (innerScan origName (mergeRooms cur j) rest (j.id :: consumed) _).2.1 = _
          rw [h1, List.append_assoc]
          rfl
        · show (innerScan origName (mergeRooms cur j) rest (j.id :: consumed) _).2.2.1 + 1 = _
          rw [h2]
          simp
        · intro s hs
          rw [List.mem_append] at hs
          simp only [List.map_cons, List.mem_cons]
          rcases hs with hs | hs
          · exact Or.inr (h3 s hs)
          · rw [List.mem_singleton] at hs
            exact Or.inl hs
        · refine List.Nodup.append h4 (by simp) ?_
          rw [List.disjoint_singleton]
          exact hjS
        · intro s hs
          rw [List.mem_append] at hs
          rcases hs with hs | hs
          · intro hmem
            exact (h5 s hs) (by simp [hmem])
          · rw [List.mem_singleton] at hs
            subst hs
            exact not_mem_of_contains_false hc
        · show (innerScan origName (mergeRooms cur j) rest (j.id :: consumed) _).1.id = cur.id ∨
            (innerScan origName (mergeRooms cur j) rest (j.id :: consumed) _).1.id ∈ S' ++ [j.id]
          rcases h6 with h6 | h6
          · rcases mergeRooms_id cur j with hm | hm
            · exact Or.inl (h6.trans hm)
            · refine Or.inr ?_
              rw [h6, hm]
              simp
          · exact Or.inr (by simp [h6])
      · rw [Bool.not_eq_true] at hd
        have heq : innerScan origName cur (j :: rest) consumed warns =
            innerScan origName cur rest consumed warns := by
          simp only [innerScan, hc, hd, Bool.false_eq_true, Bool.true_eq_false, reduceIte, if_false, if_true]
        rw [heq]
        obtain ⟨S, h1, h2, h3, h4, h5, h6⟩ := ih cur consumed warns
        exact ⟨S, h1, h2, fun s hs => by simp [h3 s hs], h4, h5, h6⟩

/-- Outer-loop invariant of one merge pass over rooms with distinct ids:
pushed rooms plus merges plus initially-consumed rooms account for every
room, pushed ids are drawn from the input and not initially consumed, and
the pushed ids stay duplicate-free. -/
theorem outerScan_spec :
    ∀ (rs : List RoomData) (consumed warns : List String),
    (rs.map (fun r => r.id)).Nodup →
    (outerScan rs consumed warns).1.length + (outerScan rs consumed warns).2.1 +
      rs.countP (fun x => consumed.contains x.id) = rs.length ∧
    (∀ x ∈ (outerScan rs consumed warns).1,
      x.id ∈ rs.map (fun r => r.id) ∧ x.id ∉ consumed) ∧
    ((outerScan rs consumed warns).1.map (fun r => r.id)).Nodup := by
  intro rs
  induction rs with
  | nil =>
    intro consumed warns _
    exact ⟨rfl, by simp [outerScan], by simp [outerScan]⟩
  | cons r rest ih =>
    intro consumed warns hnd
    rw [List.map_cons, List.nodup_cons] at hnd
    obtain ⟨hr, hrest⟩ := hnd
    by_cases hc : consumed.contains r.id = true
    · have heq : outerScan (r :: rest) consumed warns =
          outerScan rest consumed warns := by
        simp only [outerScan, hc, Bool.false_eq_true, Bool.true_eq_false,
          reduceIte, if_false, if_true]
      rw [heq]
      obtain ⟨ih1, ih2, ih3⟩ := ih consumed warns hrest
      refine ⟨?_, ?_, ih3⟩
      · rw [List.countP_cons]
        simp only [hc, if_true, List.length_cons, reduceIte]
        omega
      · intro x hx
        obtain ⟨hx1, hx2⟩ := ih2 x hx
        exact ⟨by simp [hx1], hx2⟩
    · rw [Bool.not_eq_true] at hc
      have heq : outerScan (r :: rest) consumed warns =
          ((innerScan r.name r rest consumed warns).1 ::
             (outerScan rest (r.id :: (innerScan r.name r rest consumed warns).2.1)
               (innerScan r.name r rest consumed warns).2.2.2).1,
           (innerScan r.name r rest consumed warns).2.2.1 +
             (outerScan rest (r.id :: (innerScan r.name r rest consumed warns).2.1)
               (innerScan r.name r rest consumed warns).2.2.2).2.1,
           (outerScan rest (r.id :: (innerScan r.name r rest consumed warns).2.1)
             (innerScan r.name r rest consumed warns).2.2.2).2.2) := by
        simp only [outerScan, hc, Bool.false_eq_true, Bool.true_eq_false,
          reduceIte, if_false, if_true]
      rw [heq]
      obtain ⟨S, hS1, hS2, hS3, hS4, hS5, hS6⟩ := innerScan_spec r.name rest r consumed warns
      obtain ⟨ih1, ih2, ih3⟩ :=
        ih (r.id :: (innerScan r.name r rest consumed warns).2.1)
          (innerScan r.name r rest consumed warns).2.2.2 hrest
      have hcount : rest.countP
          (fun x => (r.id :: (innerScan r.name r rest consumed warns).2.1).contains x.id) =
          S.length + rest.countP (fun x => consumed.contains x.id) := by
        have hstep : ∀ x ∈ rest,
            ((r.id :: (innerScan r.name r rest consumed warns).2.1).contains x.id) =
              (S.contains x.id || consumed.contains x.id) := by
          intro x hx
          rw [hS1, contains_cons, contains_append]
          have hxr : (x.id == r.id) = false := by
            simp only [beq_eq_false_iff_ne, ne_eq]
            intro hxeq
            exact hr (hxeq ▸ List.mem_map_of_mem (fun r => r.id) hx)
          rw [hxr]
          simp
        rw [List.countP_congr (fun x hx => by rw [hstep x hx])]
        rw [countP_or_disjoint rest (fun x => S.contains x.id)
          (fun x => consumed.contains x.id) ?_]
        · have : rest.countP (fun x => S.contains x.id) = S.length := by
            have hmapped : (rest.map (fun r => r.id)).countP (fun x => S.contains x) =
                rest.countP (fun x => S.contains x.id) := by
              rw [List.countP_map]
              rfl
            rw [← hmapped]
            exact countP_mem_of_nodup _ S hrest hS4 hS3
          omega
        · intro a _ ⟨hp, hq⟩
          exact (hS5 a.id (mem_of_contains hp)) (mem_of_contains hq)
      refine ⟨?_, ?_, ?_⟩
      · rw [List.countP_cons]
        simp only [hc, Bool.false_eq_true, reduceIte, if_false, List.length_cons]
        rw [hS2] at *
        omega
      · intro x hx
        rw [List.mem_cons] at hx
        rcases hx with rfl | hx
        · constructor
          · rcases hS6 with h | h
            · rw [h]
              simp
            · simp [hS3 _ h]
          · rcases hS6 with h | h
            · rw [h]
              exact not_mem_of_contains_false hc
            · exact hS5 _ h
        · obtain ⟨hx1, hx2⟩ := ih2 x hx
          refine ⟨by simp [hx1], ?_⟩
          intro hmem
          rw [List.mem_cons, hS1] at hx2
          exact hx2 (Or.inr (List.mem_append_right S hmem))
      · rw [List.map_cons, List.nodup_cons]
        constructor
        · intro hmem
          rw [List.mem_map] at hmem
          obtain ⟨y, hy, hyid⟩ := hmem
          obtain ⟨_, hy2⟩ := ih2 y hy
          rw [List.mem_cons, hS1] at hy2
          rcases hS6 with h | h
          · exact hy2 (Or.inl (by rw [hyid, h]))
          · exact hy2 (Or.inr (List.mem_append_left consumed (by rw [hyid]; exact h)))
        · exact ih3

/-- The bounded fixed-point iteration preserves room conservation: output
length plus total merge count equals input length plus the accumulator,
and ids stay duplicate-free. -/
theorem mergeLoop_spec :
    ∀ (fuel : Nat) (rooms : List RoomData) (mc : Nat) (warns : List String),
    (rooms.map (fun r => r.id)).Nodup →
    (mergeLoop fuel rooms mc warns).1.length + (mergeLoop fuel rooms mc warns).2.1 =
      rooms.length + mc ∧
    ((mergeLoop fuel rooms mc warns).1.map (fun r => r.id)).Nodup := by
  intro fuel
  induction fuel with
  | zero =>
    intro rooms mc warns h
    exact ⟨rfl, h⟩
  | succ fuel ih =>
    intro rooms mc warns h
    obtain ⟨p1, p2, p3⟩ := outerScan_spec rooms [] warns h
    have hcnt : rooms.countP (fun x => ([] : List String).contains x.id) = 0 :=
      List.countP_eq_zero.mpr (fun a _ => by simp [List.contains])
    rw [hcnt] at p1
    by_cases hm : 0 < (outerScan rooms [] warns).2.1
    · have heq : mergeLoop (fuel + 1) rooms mc warns =
          mergeLoop fuel (outerScan rooms [] warns).1
            (mc + (outerScan rooms [] warns).2.1) (outerScan rooms [] warns).2.2 := by
        simp only [mergeLoop]
        rw [if_pos hm]
      rw [heq]
      obtain ⟨q1, q2⟩ := ih _ _ _ p3
      refine ⟨?_, q2⟩
      rw [q1]
      omega
    · have heq : mergeLoop (fuel + 1) rooms mc warns =
          ((outerScan rooms [] warns).1, mc, (outerScan rooms [] warns).2.2) := by
        simp only [mergeLoop]
        rw [if_neg hm]
      rw [heq]
      refine ⟨?_, p3⟩
      have : (outerScan rooms [] warns).2.1 = 0 := by omega
      simp only
      omega

/-- Removing the first match yields a sublist. -/
theorem removeFirst_sublist {α : Type} (p : α → Bool) (l : List α) :
    List.Sublist (removeFirst p l) l := by
  induction l with
  | nil => simp [removeFirst]
  | cons x t ih =>
    unfold removeFirst
    by_cases hp : p x = true
    · rw [if_pos hp]
      exact List.sublist_cons_self x t
    · rw [if_neg hp]
      exact List.Sublist.cons₂ x ih

/-- Removing the first match of a successful search drops one element. -/
theorem removeFirst_length {α : Type} (p : α → Bool) (l : List α) (g : α)
    (h : l.find? p = some g) : (removeFirst p l).length + 1 = l.length := by
  induction l with
  | nil => exact Option.noConfusion h
  | cons x t ih =>
    unfold removeFirst
    by_cases hp : p x = true
    · rw [if_pos hp]
      rfl
    · rw [if_neg hp]
      rw [List.find?_cons_of_neg _ (by simpa using hp)] at h
      simpa using ih h

/-- With no match, removal is the identity. -/
theorem removeFirst_of_find?_none {α : Type} (p : α → Bool) (l : List α)
    (h : l.find? p = none) : removeFirst p l = l := by
  induction l with
  | nil => rfl
  | cons x t ih =>
    rw [List.find?_cons] at h
    unfold removeFirst
    cases hp : p x with
    | true => rw [hp] at h; exact Option.noConfusion h
    | false =>
      rw [hp] at h
      rw [if_neg (by simp)]
      rw [ih h]

/-- Mapping an id-preserving function leaves the id projection alone. -/
theorem map_field_of_preserved (l : List RoomData) (f : RoomData → RoomData)
    (h : ∀ r, (f r).id = r.id) :
    (l.map f).map (fun r => r.id) = l.map (fun r => r.id) := by
  induction l with
  | nil => rfl
  | cons x t ih => simp [h, ih]

/-- The narrative side effect does not touch room ids. -/
theorem markEmptyRooms_ids (rooms : List RoomData) :
    (markEmptyRooms rooms).map (fun r => r.id) = rooms.map (fun r => r.id) := by
  unfold markEmptyRooms
  apply map_field_of_preserved
  intro r
  by_cases hr : (isEmptyNonGeneral r &&
      !(strIncludes r.narrative_synthesis "No Visible Damage")) = true
  · rw [if_pos hr]
  · rw [if_neg hr]

/-- C10 amended: for every input whose room ids are pairwise distinct,
`sanitizeRooms` conserves rooms up to merging — output length plus
`mergeCount` equals the input length — and the empty input returns an
empty room list, empty warnings and merge count 0.  Without the
distinct-id hypothesis a room can be dropped (`C10_counterexample`). -/
theorem C10_amended :
    (∀ rooms : List RoomData, (rooms.map (fun r => r.id)).Nodup →
      (sanitizeRooms rooms).rooms.length + (sanitizeRooms rooms).mergeCount =
        rooms.length) ∧
    sanitizeRooms [] = ⟨[], [], 0⟩ := by
  constructor
  · intro rooms hnd
    by_cases he : rooms.isEmpty = true
    · rw [List.isEmpty_iff] at he
      subst he
      rfl
    · rw [Bool.not_eq_true] at he
      have hids : (markEmptyRooms rooms).map (fun r => r.id) =
          rooms.map (fun r => r.id) := markEmptyRooms_ids rooms
      have hlen : (markEmptyRooms rooms).length = rooms.length := by
        simp [markEmptyRooms]
      have hnd' : ((markEmptyRooms rooms).map (fun r => r.id)).Nodup := by
        rw [hids]
        exact hnd
      have hwork : ((removeFirst (fun r => isGeneralLowName r.name)
          (markEmptyRooms rooms)).map (fun r => r.id)).Nodup :=
        List.Nodup.sublist
          (List.Sublist.map _ (removeFirst_sublist _ (markEmptyRooms rooms))) hnd'
      obtain ⟨hm1, _⟩ := mergeLoop_spec MAX_MERGE_PASSES
        (removeFirst (fun r => isGeneralLowName r.name) (markEmptyRooms rooms)) 0
        (detectHallucinationWarnings rooms) hwork
      unfold sanitizeRooms
      rw [he]
      simp only [Bool.false_eq_true, if_false]
      cases hfind : (markEmptyRooms rooms).find? (fun r => isGeneralLowName r.name) with
      | some g =>
        have hrl := removeFirst_length (fun r => isGeneralLowName r.name)
          (markEmptyRooms rooms) g hfind
        dsimp only [List.length_cons]
        omega
      | none =>
        have hrl : removeFirst (fun r => isGeneralLowName r.name) (markEmptyRooms rooms) =
            markEmptyRooms rooms :=
          removeFirst_of_find?_none _ _ hfind
        have hwl : (removeFirst (fun r => isGeneralLowName r.name)
            (markEmptyRooms rooms)).length = rooms.length := by
          rw [hrl, hlen]
        dsimp only
        omega
  · rfl

/-- Witness for C10 amended on a two-room input that merges once. -/
theorem C10_witness :
    (([sampleRoom "a" "Bathroom 3" [sampleItem "WTR" "EXTW" "+" 10],
        sampleRoom "b" "Bathroom 2" [sampleItem "WTR" "EXTW" "+" 10]].map
      (fun r => r.id)).Nodup) ∧
    (sanitizeRooms [sampleRoom "a" "Bathroom 3" [sampleItem "WTR" "EXTW" "+" 10],
        sampleRoom "b" "Bathroom 2" [sampleItem "WTR" "EXTW" "+" 10]]).rooms.length +
      (sanitizeRooms [sampleRoom "a" "Bathroom 3" [sampleItem "WTR" "EXTW" "+" 10],
        sampleRoom "b" "Bathroom 2" [sampleItem "WTR" "EXTW" "+" 10]]).mergeCount =
      [sampleRoom "a" "Bathroom 3" [sampleItem "WTR" "EXTW" "+" 10],
        sampleRoom "b" "Bathroom 2" [sampleItem "WTR" "EXTW" "+" 10]].length :=
  ⟨by decide,
    C10_amended.1 [sampleRoom "a" "Bathroom 3" [sampleItem "WTR" "EXTW" "+" 10],
      sampleRoom "b" "Bathroom 2" [sampleItem "WTR" "EXTW" "+" 10]] (by decide)⟩
